import Mathlib

/-!
Verification of the trip-planner REST server (Express + Prisma, `server.js`,
the PostgreSQL generation) against its natural-language specification.

The JavaScript request handlers are shallowly embedded:
- JS strings are `List Char` (`Str`); `value.trim()` is `jsTrim`,
  `value.slice(0, n)` is `List.take n`, `a || b` on strings is `jsOr`.
- thrown `ApiError(status, message)` values are the `Except` error channel
  (`Res`), so a handler that returns `.error e` aborted before committing
  any database write.
- the database is an explicit record of row lists (`DbState`); Prisma
  queries become list lookups and maps; DB-generated surrogate ids are
  modelled by their natural keys or by oracle-supplied id strings.
- calendar dates that the server manipulates with `Date`/`setUTCDate`
  are modelled as days-since-epoch integers, under which the server's
  `addDaysUtc(date, k)` is exactly `date + k`.
-/

namespace TripPlanner

/-- JS strings, modelled as lists of characters. -/
abbrev Str := List Char

/-- Whitespace predicate used by `String.prototype.trim`. -/
def isWsChar (c : Char) : Bool := c.isWhitespace

/-- JS `value.trim()`: strip leading and trailing whitespace. -/
def jsTrim (s : Str) : Str :=
  ((s.dropWhile isWsChar).reverse.dropWhile isWsChar).reverse

/-- Source `toTrimmedString`: non-string (absent) values become `''`,
strings are trimmed. -/
def toTrimmedString (v : Option Str) : Str :=
  jsTrim (v.getD [])

/-- JS `a || b` for strings: `''` is falsy. -/
def jsOr (a b : Str) : Str :=
  if a = [] then b else a

/-- JS `<` on strings: lexicographic comparison by code unit. -/
def strLtB : Str → Str → Bool
  | [], [] => false
  | [], _ :: _ => true
  | _ :: _, [] => false
  | a :: as, b :: bs =>
    if a < b then true
    else if b < a then false
    else strLtB as bs

/-- Source `ApiError(statusCode, message)`. -/
structure ApiErr where
  status : Nat
  msg : Str
deriving DecidableEq, Repr

/-- Result of a handler: either a thrown `ApiError` or a value. A thrown
error aborts the request before any write it has not yet performed. -/
abbrev Res (α : Type) := Except ApiErr α

/-- Source `normalizeDisplayName`: trim, fall back to `'Traveler'` when
blank, cap at 120 characters. -/
def normalizeDisplayName (v : Option Str) : Str :=
  let trimmed := toTrimmedString v
  if trimmed = [] then "Traveler".toList
  else trimmed.take 120

/-- Character class `[^\s@]` of the source's email regex. -/
def isEmailChar (c : Char) : Bool := !c.isWhitespace && c != '@'

/-- Matches `[^\s@]+\.[^\s@]+`: all characters in the class, with a dot
that has at least one character on each side. -/
def emailDomainPart (s : Str) : Bool :=
  s.all isEmailChar && ((s.drop 1).dropLast).contains '.'

/-- Source `isEmailLike`: trims, then tests
`/^[^\s@]+@[^\s@]+\.[^\s@]+$/`. Since the character class excludes `@`,
the string must split as `local@domain` at its unique `@`, with a
non-empty local part and a domain containing an interior dot. -/
def isEmailLike (v : Str) : Bool :=
  let trimmed := jsTrim v
  if trimmed = [] then false
  else
    match trimmed.splitOn '@' with
    | [localPart, domainPart] =>
      !localPart.isEmpty && localPart.all isEmailChar && emailDomainPart domainPart
    | _ => false

/-- Source `normalizeEditableDisplayName`: blank or email-shaped values
become `''`, everything else goes through `normalizeDisplayName`. -/
def normalizeEditableDisplayName (v : Option Str) : Str :=
  let trimmed := toTrimmedString v
  if trimmed = [] || isEmailLike trimmed then []
  else normalizeDisplayName (some trimmed)

/-- Source `normalizeTripName`: required, trimmed, capped at 120. -/
def normalizeTripName (v : Option Str) : Res Str :=
  let trimmed := toTrimmedString v
  if trimmed = [] then .error ⟨400, "Trip name is required.".toList⟩
  else .ok (trimmed.take 120)

/-- Source `normalizeDestination`: required, trimmed, capped at 200. -/
def normalizeDestination (v : Option Str) : Res Str :=
  let trimmed := toTrimmedString v
  if trimmed = [] then .error ⟨400, "Destination is required.".toList⟩
  else .ok (trimmed.take 200)

/-- Source `normalizeDayCount`: `Number(value)` must be an integer in
`[1, 60]`. The input option is the result of `Number`: `none` models a
value that is not an integer (`NaN` or fractional). -/
def normalizeDayCount (v : Option Int) : Res Int :=
  match v with
  | none => .error ⟨400, "Day count must be between 1 and 60.".toList⟩
  | some parsed =>
    if parsed < 1 ∨ parsed > 60 then
      .error ⟨400, "Day count must be between 1 and 60.".toList⟩
    else .ok parsed

/-- Source `normalizeChallengeText`: required, trimmed, capped at 500. -/
def normalizeChallengeText (v : Option Str) : Res Str :=
  let trimmed := toTrimmedString v
  if trimmed = [] then .error ⟨400, "Challenge text is required.".toList⟩
  else .ok (trimmed.take 500)

/-- The inline normalization of a post title in the posts route:
`toTrimmedString(req.body.title).slice(0, 200)`. -/
def normalizeTitleField (v : Option Str) : Str :=
  (toTrimmedString v).take 200

/-- The inline normalization of a comment body in the comments route:
`toTrimmedString(req.body.commentBody)` — trimmed only, with no length
cap applied by the application. -/
def normalizeCommentBody (v : Option Str) : Res Str :=
  let commentBody := toTrimmedString v
  if commentBody = [] then .error ⟨400, "Comment body is required.".toList⟩
  else .ok commentBody

/-- Source `normalizeTime`: blank becomes `null`; otherwise the value
must match `^\d{2}:\d{2}$` and is suffixed with `:00`. -/
def normalizeTime (v : Option Str) : Res (Option Str) :=
  let trimmed := toTrimmedString v
  if trimmed = [] then .ok none
  else
    match trimmed with
    | [h1, h2, c, m1, m2] =>
      if c = ':' ∧ h1.isDigit ∧ h2.isDigit ∧ m1.isDigit ∧ m2.isDigit then
        .ok (some (trimmed ++ [':', '0', '0']))
      else .error ⟨400, "Time must be in HH:MM format.".toList⟩
    | _ => .error ⟨400, "Time must be in HH:MM format.".toList⟩

/-- Result of JS `Number(trimmedString)` on a coordinate field: `blank`
for the empty string (the field is absent), `nan` for a non-numeric
string, `num q` for a finite numeric value. -/
inductive JsNum where
  | blank
  | nan
  | num (q : Rat)
deriving DecidableEq, Repr

/-- Source `normalizeLatitude`: blank is `null`; non-finite or
out-of-range values are rejected. -/
def normalizeLatitude (v : JsNum) : Res (Option Rat) :=
  match v with
  | .blank => .ok none
  | .nan => .error ⟨400, "Latitude must be between -90 and 90.".toList⟩
  | .num q =>
    if q < -90 ∨ q > 90 then
      .error ⟨400, "Latitude must be between -90 and 90.".toList⟩
    else .ok (some q)

/-- Source `normalizeLongitude`: blank is `null`; non-finite or
out-of-range values are rejected. -/
def normalizeLongitude (v : JsNum) : Res (Option Rat) :=
  match v with
  | .blank => .ok none
  | .nan => .error ⟨400, "Longitude must be between -180 and 180.".toList⟩
  | .num q =>
    if q < -180 ∨ q > 180 then
      .error ⟨400, "Longitude must be between -180 and 180.".toList⟩
    else .ok (some q)

/-- Source constant `maxCrawlLocationsPerPost = 12`. -/
def maxCrawlLocationsPerPost : Nat := 12

/-- Source constant `maxChallengesPerPost = 3`. -/
def maxChallengesPerPost : Nat := 3

/-- One entry of the `crawlLocations` array as sent by the client. -/
structure CrawlEntry where
  locationName : Option Str
  latitude : JsNum
  longitude : JsNum
deriving DecidableEq, Repr

/-- The `crawlLocations` request field after JSON handling: the source
accepts `null`/`''` (treated as `[]`), a JSON string, or an array;
invalid JSON and non-array payloads are its two early rejections. -/
inductive CrawlInput where
  | absent
  | invalidJson
  | notArray
  | arr (entries : List CrawlEntry)
deriving DecidableEq, Repr

/-- A normalized crawl stop. -/
structure CrawlLoc where
  locationName : Str
  latitude : Option Rat
  longitude : Option Rat
  sortOrder : Nat
deriving DecidableEq, Repr

/-- The per-entry normalization inside `normalizeCrawlLocations`. -/
def normalizeCrawlEntry (entry : CrawlEntry) (index : Nat) : Res CrawlLoc :=
  let locationName := (toTrimmedString entry.locationName).take 200
  if locationName = [] then
    .error ⟨400, "Each crawl location needs a location name.".toList⟩
  else
    match normalizeLatitude entry.latitude with
    | .error e => .error e
    | .ok latitude =>
      match normalizeLongitude entry.longitude with
      | .error e => .error e
      | .ok longitude => .ok ⟨locationName, latitude, longitude, index⟩

/-- Index-aware traversal of the entry list (`parsed.map((entry, index) => ...)`). -/
def normalizeCrawlEntries : List CrawlEntry → Nat → Res (List CrawlLoc)
  | [], _ => .ok []
  | entry :: rest, index =>
    match normalizeCrawlEntry entry index with
    | .error e => .error e
    | .ok loc =>
      match normalizeCrawlEntries rest (index + 1) with
      | .error e => .error e
      | .ok locs => .ok (loc :: locs)

/-- Source `normalizeCrawlLocations`: empty input is `[]`, more than 12
entries is rejected, each entry needs a non-empty name and in-range
optional coordinates, and `sortOrder` is the entry's index. -/
def normalizeCrawlLocations (v : CrawlInput) : Res (List CrawlLoc) :=
  match v with
  | .absent => .ok []
  | .invalidJson => .error ⟨400, "Crawl locations payload is invalid JSON.".toList⟩
  | .notArray => .error ⟨400, "Crawl locations payload must be an array.".toList⟩
  | .arr parsed =>
    if parsed.length > maxCrawlLocationsPerPost then
      .error ⟨400, "Crawl posts can include up to 12 locations.".toList⟩
    else normalizeCrawlEntries parsed 0

/-- Source `POST_TYPES = new Set(['SUGGESTION', 'EVENT', 'CRAWL'])`. -/
def postTypes : List Str := ["SUGGESTION".toList, "EVENT".toList, "CRAWL".toList]

/-- Source `normalizePostType`: trim, upper-case, membership in `POST_TYPES`. -/
def normalizePostType (v : Option Str) : Res Str :=
  let upper := (toTrimmedString v).map Char.toUpper
  if upper ∈ postTypes then .ok upper
  else .error ⟨400, "Invalid post type.".toList⟩

/-! ## Database rows and state

UTC calendar dates are days since the epoch (`Int`); the server's
`addDaysUtc` normalizes `setUTCDate` overflow, so it is plain addition. -/

/-- Source `addDaysUtc(date, daysToAdd)` on epoch-day dates. -/
def addDaysUtc (date : Int) (daysToAdd : Int) : Int := date + daysToAdd

/-- A `trips` row (fields touched by the verified routes). -/
structure TripRow where
  tripId : Str
  joinCode : Str
  tripName : Str
  destinationName : Str
  startDate : Option Int
  dayCount : Int
  createdByUserId : Str
  isArchived : Bool
deriving DecidableEq, Repr

/-- A `trip_members` row. -/
structure MemberRow where
  tripId : Str
  userId : Str
  memberRole : Str
  isActive : Bool
deriving DecidableEq, Repr

/-- A `trip_days` row. The DB-generated `tripDayId` surrogate is
modelled by the row's unique natural key `(tripId, dayNumber)`. -/
structure TripDayRow where
  tripId : Str
  dayNumber : Int
  tripDate : Option Int
  label : Str
deriving DecidableEq, Repr

/-- A `feed_posts` row as written by the posts route. Times are stored
in their normalized `HH:MM:SS` form (the source's `timeStringToDate` is
injective on such strings). -/
structure FeedPostRow where
  feedPostId : Str
  tripId : Str
  tripDayNumber : Int
  authorUserId : Str
  postType : Str
  title : Option Str
  body : Option Str
  eventName : Option Str
  fromTime : Option Str
  toTime : Option Str
  locationName : Option Str
  latitude : Option Rat
  longitude : Option Rat
  isDeleted : Bool
deriving DecidableEq, Repr

/-- A `feed_post_crawl_locations` row. -/
structure CrawlLocRow where
  feedPostId : Str
  sortOrder : Nat
  locationName : Str
  latitude : Option Rat
  longitude : Option Rat
deriving DecidableEq, Repr

/-- A `post_votes` row: the `(feedPostId, userId)` primary key. -/
structure VoteRow where
  feedPostId : Str
  userId : Str
deriving DecidableEq, Repr

/-- A `feed_comments` row. -/
structure CommentRow where
  feedPostId : Str
  authorUserId : Str
  commentBody : Str
  isDeleted : Bool
deriving DecidableEq, Repr

/-- The database state seen by the verified routes. -/
structure DbState where
  trips : List TripRow
  members : List MemberRow
  days : List TripDayRow
  posts : List FeedPostRow
  crawlLocs : List CrawlLocRow
  votes : List VoteRow
  comments : List CommentRow
deriving DecidableEq, Repr

/-- Source `isTripMember`: an active membership row exists. -/
def isTripMember (st : DbState) (tripId userId : Str) : Bool :=
  st.members.any fun m =>
    decide (m.tripId = tripId ∧ m.userId = userId ∧ m.isActive = true)

/-- Source `isTripOwner`: an active `OWNER` membership row exists. -/
def isTripOwner (st : DbState) (tripId userId : Str) : Bool :=
  st.members.any fun m =>
    decide (m.tripId = tripId ∧ m.userId = userId ∧
      m.memberRole = "OWNER".toList ∧ m.isActive = true)

/-! ## Trip creation (`createTripRecord`) -/

/-- The arguments `createTripRecord` receives from the trips route after
`normalizeTripName` / `normalizeDestination` / `normalizeStartDate` /
`normalizeDayCount`. `startDate` is the already parsed date
(`parseDateOnly` result): `none` when the client sent no date. -/
structure TripCreateData where
  tripName : Str
  destinationName : Str
  startDate : Option Int
  dayCount : Int
  userId : Str
deriving DecidableEq, Repr

/-- The `dayRows` loop inside the trip-creation transaction:
`dayNumber` runs from 1 to `dayCount`, `tripDate` is
`addDaysUtc(parsedStartDate, dayNumber - 1)` when a start date was
given, else `null`, and the label is `Day <n>`. -/
def buildTripDayRows (tripId : Str) (parsedStartDate : Option Int) (dayCount : Int) :
    List TripDayRow :=
  (List.range dayCount.toNat).map fun (i : Nat) =>
    { tripId := tripId
      dayNumber := (i : Int) + 1
      tripDate := parsedStartDate.map fun d => addDaysUtc d (((i : Int) + 1) - 1)
      label := ("Day " ++ toString ((i : Int) + 1)).toList }

/-- One attempt's transaction: insert the trip, the OWNER membership,
and all day rows, or abort wholesale (`none`) if the generated join code
violates the `trips.join_code` unique constraint. -/
def tripTxn (st : DbState) (d : TripCreateData) (tripId joinCode : Str) :
    Option DbState :=
  if st.trips.any (fun t => decide (t.joinCode = joinCode)) then none
  else
    some { st with
      trips := st.trips ++
        [⟨tripId, joinCode, d.tripName, d.destinationName, d.startDate,
          d.dayCount, d.userId, false⟩]
      members := st.members ++ [⟨tripId, d.userId, "OWNER".toList, true⟩]
      days := st.days ++ buildTripDayRows tripId d.startDate d.dayCount }

/-- How the `createTripRecord` loop ends. `created` is the successful
return; `rethrownCollision` is the `throw error` branch re-raising the
raw Prisma unique-violation error (it is not an `ApiError`, so the
global error handler answers 500 `Unexpected server error.`);
`exhausted` is the `throw new ApiError(500, 'Unable to generate a
unique join code.')` after the loop. -/
inductive CreateOutcome where
  | created (tripId : Str)
  | rethrownCollision
  | exhausted
deriving DecidableEq, Repr

/-- The retry loop of `createTripRecord`:
`for (attempt = 0; attempt < 10; attempt += 1)`, with fresh
`generateJoinCode()` / `makeId()` draws supplied by the oracle `gen`
(join code, trip id) per attempt. A collision retries only while
`attempt < 9`; otherwise the raw error is rethrown. `fuel` counts the
loop iterations that remain (`10 - attempt`), so reaching `fuel = 0`
is the fall-through to the final `ApiError`. -/
def createTripGo (gen : Nat → Str × Str) (d : TripCreateData) (st : DbState) :
    Nat → Nat → DbState × CreateOutcome
  | _, 0 => (st, .exhausted)
  | attempt, fuel + 1 =>
    let joinCode := (gen attempt).1
    let tripId := (gen attempt).2
    match tripTxn st d tripId joinCode with
    | some st2 => (st2, .created tripId)
    | none =>
      if attempt < 9 then createTripGo gen d st (attempt + 1) fuel
      else (st, .rethrownCollision)

/-- Source `createTripRecord`: up to 10 attempts starting at attempt 0. -/
def createTripRecord (gen : Nat → Str × Str) (d : TripCreateData) (st : DbState) :
    DbState × CreateOutcome :=
  createTripGo gen d st 0 10

/-- The HTTP error response each failing outcome produces, per the
global error handler: a rethrown `PrismaClientKnownRequestError P2002`
is neither an `ApiError` nor a connection error, so it falls through to
the generic 500; the exhausted branch's `ApiError` keeps its message. -/
def createOutcomeError : CreateOutcome → Option ApiErr
  | .created _ => none
  | .rethrownCollision => some ⟨500, "Unexpected server error.".toList⟩
  | .exhausted => some ⟨500, "Unable to generate a unique join code.".toList⟩

/-! ## Trip deletion (`DELETE /api/trips/:tripId`) -/

/-- Source `DELETE /api/trips/:tripId`: 404 unless an unarchived row
with this id exists, 403 unless the caller is an active owner, then
`updateMany` archives the unarchived row(s) and every membership row of
the trip is deactivated. Nothing is removed. -/
def deleteTrip (st : DbState) (tripId userId : Str) : Res DbState :=
  match st.trips.find? (fun t => decide (t.tripId = tripId ∧ t.isArchived = false)) with
  | none => .error ⟨404, "Trip not found.".toList⟩
  | some _ =>
    if isTripOwner st tripId userId = false then
      .error ⟨403, "Only trip owners can delete trips.".toList⟩
    else
      let archivedCount :=
        (st.trips.filter fun t => decide (t.tripId = tripId ∧ t.isArchived = false)).length
      let trips := st.trips.map fun t =>
        if t.tripId = tripId ∧ t.isArchived = false then { t with isArchived := true } else t
      if archivedCount = 0 then .error ⟨404, "Trip not found.".toList⟩
      else
        .ok { st with
          trips := trips
          members := st.members.map fun m =>
            if m.tripId = tripId then { m with isActive := false } else m }

/-! ## Voting (`POST /api/posts/:postId/votes`) -/

/-- The Prisma `postVote.upsert` with an empty `update`: create the
`(feedPostId, userId)` row if absent, otherwise change nothing. -/
def upsertVote (votes : List VoteRow) (postId userId : Str) : List VoteRow :=
  if votes.any (fun v => decide (v.feedPostId = postId ∧ v.userId = userId)) then votes
  else votes ++ [⟨postId, userId⟩]

/-- Source `POST /api/posts/:postId/votes`: 404 unless the post exists
and is not soft-deleted, 403 unless the caller is a member of the
post's trip, then the vote is upserted and the vote count for the post
is returned. -/
def votePost (st : DbState) (postId userId : Str) : Res (DbState × Nat) :=
  match st.posts.find? (fun p => decide (p.feedPostId = postId ∧ p.isDeleted = false)) with
  | none => .error ⟨404, "Post not found.".toList⟩
  | some post =>
    if isTripMember st post.tripId userId = false then
      .error ⟨403, "Join this trip before voting.".toList⟩
    else
      let votes := upsertVote st.votes postId userId
      let voteCount := (votes.filter fun v => decide (v.feedPostId = postId)).length
      .ok ({ st with votes := votes }, voteCount)

/-! ## Comments (`POST /api/posts/:postId/comments`) -/

/-- Source `POST /api/posts/:postId/comments`: the body is trimmed and
required, the post must exist un-deleted, the caller must be a member;
the comment row is then inserted with the trimmed body as-is. -/
def createComment (st : DbState) (postId userId : Str) (body : Option Str) :
    Res (DbState × Str) :=
  match normalizeCommentBody body with
  | .error e => .error e
  | .ok commentBody =>
    match st.posts.find? (fun p => decide (p.feedPostId = postId ∧ p.isDeleted = false)) with
    | none => .error ⟨404, "Post not found.".toList⟩
    | some post =>
      if isTripMember st post.tripId userId = false then
        .error ⟨403, "Join this trip before commenting.".toList⟩
      else
        .ok ({ st with comments := st.comments ++ [⟨postId, userId, commentBody, false⟩] },
          commentBody)

/-! ## Challenges

`feed_post_challenges` and `feed_post_crawl_location_challenges` rows
share the completion shape verified here; `parentId` stands for the
owning `feedPostId` resp. `feedPostCrawlLocationId`. -/

/-- A challenge row (either kind). -/
structure ChallengeRow where
  challengeId : Str
  parentId : Str
  authorUserId : Str
  taggedUserId : Option Str
  challengeText : Str
  isCompleted : Bool
  completedByUserId : Option Str
deriving DecidableEq, Repr

/-- A freshly created challenge row: the insert sets neither
`isCompleted` nor `completedByUserId`, so the schema defaults
(`false` / `NULL`) apply. -/
def newChallengeRow (challengeId parentId authorUserId : Str)
    (taggedUserId : Option Str) (challengeText : Str) : ChallengeRow :=
  { challengeId := challengeId
    parentId := parentId
    authorUserId := authorUserId
    taggedUserId := taggedUserId
    challengeText := challengeText
    isCompleted := false
    completedByUserId := none }

/-- The update both toggle routes perform:
`nextCompleted = !challenge.isCompleted`, and
`completedByUserId = nextCompleted ? userId : null`. -/
def toggleChallengeRow (userId : Str) (c : ChallengeRow) : ChallengeRow :=
  let nextCompleted := !c.isCompleted
  { c with
    isCompleted := nextCompleted
    completedByUserId := if nextCompleted then some userId else none }

/-- The operations the challenge routes perform on a challenge table. -/
inductive ChallengeOp where
  | create (challengeId parentId authorUserId : Str)
      (taggedUserId : Option Str) (challengeText : Str)
  | toggle (challengeId userId : Str)
  | del (challengeId : Str)
deriving DecidableEq, Repr

/-- Apply one route's table effect. Creation respects the per-parent
count limit (a rejected create writes nothing); toggling updates the
matching row; deletion removes it. -/
def applyChallengeOp (rows : List ChallengeRow) : ChallengeOp → List ChallengeRow
  | .create challengeId parentId authorUserId taggedUserId challengeText =>
    if maxChallengesPerPost ≤ (rows.filter fun c => decide (c.parentId = parentId)).length then
      rows
    else rows ++ [newChallengeRow challengeId parentId authorUserId taggedUserId challengeText]
  | .toggle challengeId userId =>
    rows.map fun c =>
      if c.challengeId = challengeId then toggleChallengeRow userId c else c
  | .del challengeId =>
    rows.filter fun c => decide (¬ c.challengeId = challengeId)

/-- Run a sequence of challenge operations from the empty table. -/
def runChallengeOps (ops : List ChallengeOp) : List ChallengeRow :=
  ops.foldl applyChallengeOp []

/-- The completion invariant: flag and completer are set together. -/
def challengeInv (c : ChallengeRow) : Prop :=
  c.isCompleted = true ↔ c.completedByUserId ≠ none

/-! ## Display-name resolution (`resolveAuthenticatedUser`) -/

/-- Source `getAuthClaimString`: a claim read as a trimmed string. -/
def getAuthClaimString (v : Option Str) : Str :=
  toTrimmedString v

/-- The display-name resolution inside `resolveAuthenticatedUser`:
`tokenName` is the `name` claim or, when that trims to `''`, the
`nickname` claim; each candidate passes through
`normalizeEditableDisplayName`; the first JS-truthy value wins, with
`'Traveler'` as the final fallback. `existingDisplayName` is the stored
name of the matched user row (`none` when no user matched). -/
def resolveDisplayName (preferredDisplayName : Option Str)
    (existingDisplayName : Option Str) (claimName claimNickname : Option Str) : Str :=
  let tokenName := jsOr (getAuthClaimString claimName) (getAuthClaimString claimNickname)
  let preferredName := normalizeEditableDisplayName preferredDisplayName
  let tokenDisplayName := normalizeEditableDisplayName (some tokenName)
  let existingName := normalizeEditableDisplayName existingDisplayName
  jsOr preferredName (jsOr existingName (jsOr tokenDisplayName "Traveler".toList))

/-- Acceptability filter in the specification's words: non-empty after
trimming and not email-address-shaped. -/
def specNameAcceptable (v : Option Str) : Prop :=
  toTrimmedString v ≠ [] ∧ isEmailLike (toTrimmedString v) = false

instance (v : Option Str) : Decidable (specNameAcceptable v) := by
  unfold specNameAcceptable
  infer_instance

/-- The accepted form of a candidate: trimmed and capped at 120
characters (the resolver's normalization of accepted names). -/
def specNameValue (v : Option Str) : Str :=
  (toTrimmedString v).take 120

/-- The effective display name as the specification describes it: the
first acceptable candidate among the caller-supplied name, the stored
name, and the token's name/nickname claim, else `'Traveler'`. -/
def specDisplayName (preferredDisplayName : Option Str)
    (existingDisplayName : Option Str) (claimName claimNickname : Option Str) : Str :=
  let tokenClaim :=
    if toTrimmedString claimName ≠ [] then toTrimmedString claimName
    else toTrimmedString claimNickname
  if specNameAcceptable preferredDisplayName then specNameValue preferredDisplayName
  else if specNameAcceptable existingDisplayName then specNameValue existingDisplayName
  else if specNameAcceptable (some tokenClaim) then specNameValue (some tokenClaim)
  else "Traveler".toList

/-! ## Post creation (`POST /api/trips/:tripId/posts`) -/

/-- The request body of the posts route (plus the number of uploaded
image files). `dayNumber` is the result of `Number(req.body.dayNumber)`
(`none` when that is not an integer). -/
structure PostReq where
  dayNumber : Option Int
  postType : Option Str
  title : Option Str
  body : Option Str
  eventName : Option Str
  fromTime : Option Str
  toTime : Option Str
  locationName : Option Str
  latitude : JsNum
  longitude : JsNum
  crawlLocations : CrawlInput
  imageCount : Nat
deriving DecidableEq, Repr

/-- The request's fields after normalization and type-specific
validation. -/
structure PostPayload where
  dayNumber : Int
  postType : Str
  title : Str
  body : Str
  eventName : Str
  fromTime : Option Str
  toTime : Option Str
  locationName : Str
  latitude : Option Rat
  longitude : Option Rat
  crawlLocations : List CrawlLoc
deriving DecidableEq, Repr

/-- The `fromTime >= toTime` comparison of the posts route. It only
runs after both bounds were checked present, so it is the negated
lexicographic `<` on the two normalized time strings. -/
def timesOutOfOrder (fromTime toTime : Option Str) : Bool :=
  match fromTime, toTime with
  | some ft, some tt => !strLtB ft tt
  | _, _ => false

/-- The normalization and validation prefix of the posts route, in
source order: field normalizers first (each may throw 400), then the
SUGGESTION emptiness check, the EVENT checks, the CRAWL checks, and the
SUGGESTION scheduling checks. -/
def normalizePostPayload (req : PostReq) : Res PostPayload :=
  match normalizeDayCount req.dayNumber with
  | .error e => .error e
  | .ok dayNumber =>
  match normalizePostType req.postType with
  | .error e => .error e
  | .ok postType =>
  let title := (toTrimmedString req.title).take 200
  let body := toTrimmedString req.body
  let eventName := (toTrimmedString req.eventName).take 200
  match normalizeTime req.fromTime with
  | .error e => .error e
  | .ok fromTime =>
  match normalizeTime req.toTime with
  | .error e => .error e
  | .ok toTime =>
  let locationName := (toTrimmedString req.locationName).take 200
  match normalizeLatitude req.latitude with
  | .error e => .error e
  | .ok latitude =>
  match normalizeLongitude req.longitude with
  | .error e => .error e
  | .ok longitude =>
  match normalizeCrawlLocations req.crawlLocations with
  | .error e => .error e
  | .ok crawlLocations =>
  if postType = "SUGGESTION".toList ∧ title = [] ∧ body = [] ∧ req.imageCount = 0 then
    .error ⟨400, "Suggestion post needs a title or body.".toList⟩
  else if postType = "EVENT".toList ∧ (eventName = [] ∨ fromTime = none ∨ toTime = none) then
    .error ⟨400, "Event post needs event name, from time, and to time.".toList⟩
  else if postType = "EVENT".toList ∧ timesOutOfOrder fromTime toTime = true then
    .error ⟨400, "Event end time must be after start time.".toList⟩
  else if postType = "CRAWL".toList ∧ title = [] then
    .error ⟨400, "Crawl post needs a title.".toList⟩
  else if postType = "CRAWL".toList ∧ (fromTime = none ∨ toTime = none) then
    .error ⟨400, "Crawl post needs both start and end time.".toList⟩
  else if postType = "CRAWL".toList ∧ timesOutOfOrder fromTime toTime = true then
    .error ⟨400, "Crawl end time must be after start time.".toList⟩
  else if postType = "CRAWL".toList ∧ crawlLocations = [] then
    .error ⟨400, "Crawl post needs at least one location.".toList⟩
  else if postType = "SUGGESTION".toList ∧ (fromTime ≠ none ∨ toTime ≠ none) ∧
      (fromTime = none ∨ toTime = none) then
    .error ⟨400, "Suggestion post needs both start and end time when scheduling.".toList⟩
  else if postType = "SUGGESTION".toList ∧ timesOutOfOrder fromTime toTime = true then
    .error ⟨400, "Suggestion end time must be after start time.".toList⟩
  else
    .ok ⟨dayNumber, postType, title, body, eventName, fromTime, toTime,
      locationName, latitude, longitude, crawlLocations⟩

/-- Decimal value of a `split(':')` segment, as JS `Number` computes it
on the digit-string segments `normalizeTime` produces: `none` when the
segment is absent, empty, or contains a non-digit — the cases in which
the route's `Number.isInteger` test fails. -/
def digitSegToInt (s : Str) : Option Int :=
  if s ≠ [] ∧ s.all Char.isDigit then
    some (s.foldl (fun acc c => acc * 10 + ((c.toNat : Int) - 48)) 0)
  else none

/-- Source `timeStringToDate`: a falsy value stays `null`; otherwise the
string is split at `:` into hours, minutes, and seconds, which must all
be integers in range (hours 0–23, minutes 0–59, seconds 0–59), else it
throws 400 `Time is invalid.` — this runs inside the posts route's
insert transaction, after `normalizeTime`'s format check. The
constructed `Date.UTC(1970, 0, 1, h, m, s)` is modelled by the
validated time string itself, so on success the function returns its
argument unchanged. -/
def timeStringToDate (v : Option Str) : Res (Option Str) :=
  match v with
  | none => .ok none
  | some value =>
    let parts := value.splitOn ':'
    match (parts.get? 0).bind digitSegToInt, (parts.get? 1).bind digitSegToInt,
        (parts.get? 2).bind digitSegToInt with
    | some hours, some minutes, some seconds =>
      if hours < 0 ∨ hours > 23 ∨ minutes < 0 ∨ minutes > 59
          ∨ seconds < 0 ∨ seconds > 59 then
        .error ⟨400, "Time is invalid.".toList⟩
      else .ok (some value)
    | _, _, _ => .error ⟨400, "Time is invalid.".toList⟩

/-- The `feed_posts` row the posts route inserts: for a CRAWL post the
top-level location fields are back-filled from the first crawl stop
(`crawlLocations[0] ?? null`). The stored `fromTime`/`toTime` are the
`timeStringToDate` results, which on the success path equal the
normalized strings. -/
def buildFeedPostRow (p : PostPayload) (tripId userId postId : Str) (day : TripDayRow) :
    FeedPostRow :=
  { feedPostId := postId
    tripId := tripId
    tripDayNumber := day.dayNumber
    authorUserId := userId
    postType := p.postType
    title := if p.title = [] then none else some p.title
    body := if p.body = [] then none else some p.body
    eventName := if p.eventName = [] then none else some p.eventName
    fromTime := p.fromTime
    toTime := p.toTime
    locationName :=
      if p.postType = "CRAWL".toList then p.crawlLocations.head?.map (fun l => l.locationName)
      else if p.locationName = [] then none else some p.locationName
    latitude :=
      if p.postType = "CRAWL".toList then p.crawlLocations.head?.bind (fun l => l.latitude)
      else p.latitude
    longitude :=
      if p.postType = "CRAWL".toList then p.crawlLocations.head?.bind (fun l => l.longitude)
      else p.longitude
    isDeleted := false }

/-- The `feed_post_crawl_locations` rows the posts route inserts. -/
def buildCrawlRows (p : PostPayload) (postId : Str) : List CrawlLocRow :=
  if p.postType = "CRAWL".toList then
    p.crawlLocations.map fun loc =>
      CrawlLocRow.mk postId loc.sortOrder loc.locationName loc.latitude loc.longitude
  else []

/-- The database phase of the posts route: membership check, day
lookup, then one transaction whose insert evaluates
`timeStringToDate(fromTime)` and `timeStringToDate(toTime)` — rejecting
out-of-range times with 400 `Time is invalid.` and aborting the
transaction — before the post row and the crawl-stop rows are written.
`postId` is the DB-generated id of the new post. -/
def createPost (req : PostReq) (st : DbState) (tripId userId postId : Str) :
    Res (DbState × FeedPostRow) :=
  match normalizePostPayload req with
  | .error e => .error e
  | .ok p =>
    if isTripMember st tripId userId = false then
      .error ⟨403, "Join this trip before posting.".toList⟩
    else
      match st.days.find? (fun d => decide (d.tripId = tripId ∧ d.dayNumber = p.dayNumber)) with
      | none => .error ⟨404, "Selected day not found in trip.".toList⟩
      | some day =>
        match timeStringToDate p.fromTime with
        | .error e => .error e
        | .ok _ =>
          match timeStringToDate p.toTime with
          | .error e => .error e
          | .ok _ =>
            .ok ({ st with
                posts := st.posts ++ [buildFeedPostRow p tripId userId postId day]
                crawlLocs := st.crawlLocs ++ buildCrawlRows p postId },
              buildFeedPostRow p tripId userId postId day)

/-! ## Helper lemmas -/

theorem jsTrim_eq_rdropWhile (s : Str) :
    jsTrim s = List.rdropWhile isWsChar (s.dropWhile isWsChar) := rfl

theorem dropWhile_rdropWhile (p : α → Bool) (l : List α)
    (h : l.dropWhile p = l) : (l.rdropWhile p).dropWhile p = l.rdropWhile p := by
  rcases hr : l.rdropWhile p with _ | ⟨a, t⟩
  · simp
  · have hpre : l.rdropWhile p <+: l := List.rdropWhile_prefix p l
    rw [hr] at hpre
    obtain ⟨r, hrr⟩ := hpre
    have ha : p a = false := by
      rw [← hrr, List.cons_append] at h
      have hhead := List.dropWhile_eq_self_iff.mp h (by simp)
      simpa using hhead
    rw [List.dropWhile_cons_of_neg (by simp [ha])]

theorem jsTrim_idem (s : Str) : jsTrim (jsTrim s) = jsTrim s := by
  rw [jsTrim_eq_rdropWhile, jsTrim_eq_rdropWhile]
  rw [dropWhile_rdropWhile isWsChar _ (List.dropWhile_idempotent _ _)]
  exact List.rdropWhile_idempotent _ _

theorem toTrimmedString_some_jsTrim (s : Str) :
    toTrimmedString (some (jsTrim s)) = jsTrim s := by
  simp [toTrimmedString, jsTrim_idem]

/-! ## C3: vote idempotence -/

theorem upsertVote_idem (votes : List VoteRow) (postId userId : Str) :
    upsertVote (upsertVote votes postId userId) postId userId =
      upsertVote votes postId userId := by
  unfold upsertVote
  by_cases hc : (votes.any fun v => decide (v.feedPostId = postId ∧ v.userId = userId)) = true
  · rw [if_pos hc, if_pos hc]
  · rw [if_neg hc]
    have hc2 : ((votes ++ [VoteRow.mk postId userId]).any
        fun v => decide (v.feedPostId = postId ∧ v.userId = userId)) = true := by
      simp [List.any_append]
    rw [if_pos hc2]

/-- A sample state with a post and a member but no vote yet. -/
def voteSampleState : DbState :=
  { trips := [], members := [⟨"t1".toList, "u1".toList, "MEMBER".toList, true⟩],
    days := [],
    posts := [⟨"p1".toList, "t1".toList, 1, "u1".toList, "SUGGESTION".toList,
      some "hi".toList, none, none, none, none, none, none, none, false⟩],
    crawlLocs := [], votes := [], comments := [] }

/-- The state after one successful vote on `voteSampleState`. -/
def voteSampleStateAfter : DbState :=
  { voteSampleState with votes := [⟨"p1".toList, "u1".toList⟩] }

/-- C3: vote registration is idempotent — when the vote endpoint
succeeds, running it again on the resulting state succeeds, leaves the
database unchanged, and reports the same vote count. -/
theorem c3_vote_idempotent (st st1 : DbState) (postId userId : Str) (c1 : Nat)
    (h : votePost st postId userId = .ok (st1, c1)) :
    votePost st1 postId userId = .ok (st1, c1) := by
  unfold votePost at h ⊢
  cases hfind : st.posts.find? (fun p => decide (p.feedPostId = postId ∧ p.isDeleted = false)) with
  | none => rw [hfind] at h; exact absurd h (by simp)
  | some post =>
    rw [hfind] at h
    cases hmem : isTripMember st post.tripId userId with
    | false => simp only [hmem] at h; simp at h
    | true =>
      simp only [hmem] at h
      simp only [Bool.true_eq_false, if_false, Except.ok.injEq, Prod.mk.injEq] at h
      obtain ⟨hst1, hc1⟩ := h
      subst hc1
      have hfind2 : List.find? (fun p => decide (p.feedPostId = postId ∧ p.isDeleted = false))
          st1.posts = some post := by rw [← hst1]; exact hfind
      have hmem2 : isTripMember st1 post.tripId userId = true := by
        rw [← hst1]; exact hmem
      have hvotes : st1.votes = upsertVote st.votes postId userId := by rw [← hst1]
      rw [hfind2]
      simp only [hmem2, Bool.true_eq_false, if_false, Except.ok.injEq, Prod.mk.injEq]
      constructor
      · rw [← hst1]
        simp [hvotes, upsertVote_idem]
      · rw [hvotes, upsertVote_idem]

/-- C3 witness: a concrete successful vote, voted again. -/
theorem c3_vote_idempotent_witness :
    votePost voteSampleStateAfter "p1".toList "u1".toList =
      .ok (voteSampleStateAfter, 1) :=
  c3_vote_idempotent voteSampleState voteSampleStateAfter
    "p1".toList "u1".toList 1 rfl

/-! ## C7: trip deletion archives, never removes -/

/-- C7: deleting a trip as its owner succeeds, keeps every trip row and
every membership row (only flags change), archives the trip (which
remains findable by id), deactivates all of the trip's memberships, and
a second delete attempt — by any user — fails with 404. -/
theorem c7_delete_trip_archives (st : DbState) (tripId userId : Str)
    (hex : ∃ t ∈ st.trips, t.tripId = tripId ∧ t.isArchived = false)
    (hown : isTripOwner st tripId userId = true) :
    ∃ st', deleteTrip st tripId userId = .ok st'
      ∧ st'.trips.map TripRow.tripId = st.trips.map TripRow.tripId
      ∧ st'.members.length = st.members.length
      ∧ (∃ t ∈ st'.trips, t.tripId = tripId ∧ t.isArchived = true)
      ∧ (∀ m ∈ st'.members, m.tripId = tripId → m.isActive = false)
      ∧ (∀ uid2, deleteTrip st' tripId uid2 = .error ⟨404, "Trip not found.".toList⟩) := by
  obtain ⟨t0, ht0mem, ht0id, ht0arch⟩ := hex
  have hfind : (st.trips.find? fun t => decide (t.tripId = tripId ∧ t.isArchived = false)).isSome := by
    rw [List.find?_isSome]
    exact ⟨t0, ht0mem, by simp [ht0id, ht0arch]⟩
  obtain ⟨tf, hf⟩ := Option.isSome_iff_exists.mp hfind
  refine ⟨{ st with
      trips := st.trips.map fun t =>
        if t.tripId = tripId ∧ t.isArchived = false then { t with isArchived := true } else t
      members := st.members.map fun m =>
        if m.tripId = tripId then { m with isActive := false } else m }, ?_, ?_, ?_, ?_, ?_, ?_⟩
  · unfold deleteTrip
    rw [hf, hown]
    simp only [Bool.true_eq_false, if_false]
    rw [if_neg ?hcount]
    case hcount =>
      intro hzero
      have ht0f : t0 ∈ st.trips.filter fun t => decide (t.tripId = tripId ∧ t.isArchived = false) := by
        rw [List.mem_filter]
        exact ⟨ht0mem, by simp [ht0id, ht0arch]⟩
      rw [List.length_eq_zero] at hzero
      rw [hzero] at ht0f
      exact absurd ht0f (List.not_mem_nil t0)
  · simp only [List.map_map]
    apply List.map_congr_left
    intro t _
    by_cases h : t.tripId = tripId ∧ t.isArchived = false <;> simp [h]
  · simp
  · refine ⟨{ t0 with isArchived := true }, ?_, by simp [ht0id], by simp⟩
    simp only [List.mem_map]
    exact ⟨t0, ht0mem, by rw [if_pos ⟨ht0id, ht0arch⟩]⟩
  · intro m hm hmid
    simp only [List.mem_map] at hm
    obtain ⟨m0, _, hm0⟩ := hm
    by_cases h0 : m0.tripId = tripId
    · rw [if_pos h0] at hm0
      rw [← hm0]
    · rw [if_neg h0] at hm0
      rw [← hm0] at hmid
      exact absurd hmid h0
  · intro uid2
    unfold deleteTrip
    have hnone : (List.find? (fun t => decide (t.tripId = tripId ∧ t.isArchived = false))
        (st.trips.map fun t =>
          if t.tripId = tripId ∧ t.isArchived = false then { t with isArchived := true } else t))
        = none := by
      rw [List.find?_eq_none]
      intro x hx
      simp only [List.mem_map] at hx
      obtain ⟨t1, _, ht1⟩ := hx
      by_cases h1 : t1.tripId = tripId ∧ t1.isArchived = false
      · rw [if_pos h1] at ht1
        rw [← ht1]
        simp
      · rw [if_neg h1] at ht1
        rw [← ht1]
        simpa using h1
    rw [hnone]

/-- A sample state for trip deletion: one trip, its owner membership,
and a second member. -/
def deleteSampleState : DbState :=
  { trips := [⟨"t1".toList, "AAAA2345".toList, "Trip".toList, "Oslo".toList,
      none, 3, "u1".toList, false⟩],
    members := [⟨"t1".toList, "u1".toList, "OWNER".toList, true⟩,
      ⟨"t1".toList, "u2".toList, "MEMBER".toList, true⟩],
    days := [], posts := [], crawlLocs := [], votes := [], comments := [] }

/-- C7 witness: the concrete deletion of `deleteSampleState`'s trip. -/
theorem c7_delete_trip_archives_witness :
    ∃ st', deleteTrip deleteSampleState "t1".toList "u1".toList = .ok st'
      ∧ st'.trips.map TripRow.tripId = deleteSampleState.trips.map TripRow.tripId
      ∧ st'.members.length = deleteSampleState.members.length
      ∧ (∃ t ∈ st'.trips, t.tripId = "t1".toList ∧ t.isArchived = true)
      ∧ (∀ m ∈ st'.members, m.tripId = "t1".toList → m.isActive = false)
      ∧ (∀ uid2, deleteTrip st' "t1".toList uid2 = .error ⟨404, "Trip not found.".toList⟩) :=
  c7_delete_trip_archives deleteSampleState "t1".toList "u1".toList
    (by decide) (by decide)

/-! ## C8: challenge completion invariant -/

theorem applyChallengeOp_preserves (rows : List ChallengeRow) (op : ChallengeOp)
    (h : ∀ c ∈ rows, challengeInv c) : ∀ c ∈ applyChallengeOp rows op, challengeInv c := by
  intro c hc
  cases op with
  | create challengeId parentId authorUserId taggedUserId challengeText =>
    simp only [applyChallengeOp] at hc
    split at hc
    · exact h c hc
    · rw [List.mem_append] at hc
      cases hc with
      | inl hc => exact h c hc
      | inr hc =>
        simp only [List.mem_singleton] at hc
        rw [hc]
        unfold challengeInv newChallengeRow
        simp
  | toggle challengeId userId =>
    simp only [applyChallengeOp] at hc
    rw [List.mem_map] at hc
    obtain ⟨c0, hc0, hcc⟩ := hc
    by_cases hid : c0.challengeId = challengeId
    · rw [if_pos hid] at hcc
      rw [← hcc]
      unfold challengeInv toggleChallengeRow
      cases hb : c0.isCompleted <;> simp [hb]
    · rw [if_neg hid] at hcc
      rw [← hcc]
      exact h c0 hc0
  | del challengeId =>
    simp only [applyChallengeOp] at hc
    exact h c (List.mem_of_mem_filter hc)

theorem runChallengeOps_go (ops : List ChallengeOp) (rows : List ChallengeRow)
    (h : ∀ c ∈ rows, challengeInv c) :
    ∀ c ∈ ops.foldl applyChallengeOp rows, challengeInv c := by
  induction ops generalizing rows with
  | nil => exact h
  | cons op rest ih =>
    rw [List.foldl_cons]
    exact ih (applyChallengeOp rows op) (applyChallengeOp_preserves rows op h)

/-- C8: the completion flag and the completer reference move together —
a fresh challenge has both unset, every toggle either sets both
(`true` + toggling user) or clears both (`false` + `null`), and every
table reachable by the challenge routes' operations satisfies the
invariant in every row. -/
theorem c8_challenge_completion_invariant :
    (∀ id pid author tagged text,
      (newChallengeRow id pid author tagged text).isCompleted = false
      ∧ (newChallengeRow id pid author tagged text).completedByUserId = none)
    ∧ (∀ uid c,
      ((toggleChallengeRow uid c).isCompleted = true
        ∧ (toggleChallengeRow uid c).completedByUserId = some uid)
      ∨ ((toggleChallengeRow uid c).isCompleted = false
        ∧ (toggleChallengeRow uid c).completedByUserId = none))
    ∧ (∀ ops, ∀ c ∈ runChallengeOps ops, challengeInv c) := by
  refine ⟨fun id pid author tagged text => ⟨rfl, rfl⟩, ?_, ?_⟩
  · intro uid c
    unfold toggleChallengeRow
    cases hb : c.isCompleted
    · left
      simp [hb]
    · right
      simp [hb]
  · intro ops
    exact runChallengeOps_go ops [] (by simp)

/-- C8 witness: a concrete create-then-toggle history, whose resulting
row satisfies the invariant. -/
theorem c8_challenge_completion_invariant_witness :
    challengeInv
      (ChallengeRow.mk "c1".toList "p1".toList "u1".toList none "find it".toList
        true (some "u2".toList)) := by
  have hrun : (ChallengeRow.mk "c1".toList "p1".toList "u1".toList none "find it".toList
      true (some "u2".toList)) ∈ runChallengeOps
        [.create "c1".toList "p1".toList "u1".toList none "find it".toList,
         .toggle "c1".toList "u2".toList] := by decide
  exact c8_challenge_completion_invariant.2.2
    [.create "c1".toList "p1".toList "u1".toList none "find it".toList,
     .toggle "c1".toList "u2".toList] _ hrun

/-! ## C6: free-text trimming and capping -/

theorem dropWhile_replicate_of_neg {α : Type} {p : α → Bool} {a : α} (h : p a = false)
    (n : Nat) : (List.replicate n a).dropWhile p = List.replicate n a := by
  induction n with
  | zero => simp
  | succ n _ => rw [List.replicate_succ, List.dropWhile_cons_of_neg (by simp [h])]

theorem jsTrim_replicate_of_neg {a : Char} (h : isWsChar a = false) (n : Nat) :
    jsTrim (List.replicate n a) = List.replicate n a := by
  unfold jsTrim
  rw [dropWhile_replicate_of_neg h, List.reverse_replicate,
    dropWhile_replicate_of_neg h, List.reverse_replicate]

/-- A 2001-character comment body. -/
def longCommentBody : Str := List.replicate 2001 'a'

/-- A sample state with one post and one member, used to post a comment. -/
def commentSampleState : DbState :=
  { trips := [], members := [⟨"t1".toList, "u1".toList, "MEMBER".toList, true⟩],
    days := [],
    posts := [⟨"p1".toList, "t1".toList, 1, "u1".toList, "SUGGESTION".toList,
      some "hi".toList, none, none, none, none, none, none, none, false⟩],
    crawlLocs := [], votes := [], comments := [] }

/-- C6 counterexample: a 2001-character comment body is accepted and
persisted verbatim — the comments route trims but applies no length
cap, so comment bodies are not capped at 2000 characters before
persistence. -/
theorem c6_comment_body_not_capped :
    createComment commentSampleState "p1".toList "u1".toList (some longCommentBody)
      = .ok ({ commentSampleState with
          comments := [⟨"p1".toList, "u1".toList, longCommentBody, false⟩] }, longCommentBody)
    ∧ ¬ longCommentBody.length ≤ 2000 := by
  have htrim : toTrimmedString (some longCommentBody) = longCommentBody := by
    unfold toTrimmedString longCommentBody
    exact jsTrim_replicate_of_neg (by decide) 2001
  have hne : longCommentBody ≠ [] := by
    unfold longCommentBody
    intro hnil
    have := congrArg List.length hnil
    rw [List.length_replicate] at this
    simp at this
  constructor
  · unfold createComment normalizeCommentBody
    rw [htrim, if_neg hne]
    rfl
  · unfold longCommentBody
    rw [List.length_replicate]
    omega

/-- C6 amended: post titles are trimmed and capped at 200 characters and
challenge text is trimmed and capped at 500, but accepted comment bodies
are only trimmed — the application applies no 2000-character cap (that
bound exists only as the database column type). -/
theorem c6_text_field_normalization :
    (∀ v, normalizeTitleField v = (toTrimmedString v).take 200
      ∧ (normalizeTitleField v).length ≤ 200)
    ∧ (∀ v t, normalizeChallengeText v = .ok t →
        t = (toTrimmedString v).take 500 ∧ t.length ≤ 500)
    ∧ (∀ v b, normalizeCommentBody v = .ok b → b = toTrimmedString v) := by
  refine ⟨fun v => ⟨rfl, ?_⟩, fun v t ht => ?_, fun v b hb => ?_⟩
  · unfold normalizeTitleField
    rw [List.length_take]
    omega
  · simp only [normalizeChallengeText] at ht
    split at ht
    · exact absurd ht (by simp)
    · simp only [Except.ok.injEq] at ht
      refine ⟨ht.symm, ?_⟩
      rw [← ht, List.length_take]
      omega
  · simp only [normalizeCommentBody] at hb
    split at hb
    · exact absurd hb (by simp)
    · simp only [Except.ok.injEq] at hb
      exact hb.symm

/-- C6 amended witness: the normalizers applied to concrete fields. -/
theorem c6_text_field_normalization_witness :
    (normalizeTitleField (some "  Hi  ".toList) = (toTrimmedString (some "  Hi  ".toList)).take 200
      ∧ (normalizeTitleField (some "  Hi  ".toList)).length ≤ 200)
    ∧ ("Find it".toList = (toTrimmedString (some " Find it ".toList)).take 500
      ∧ "Find it".toList.length ≤ 500)
    ∧ "ok".toList = toTrimmedString (some " ok ".toList) :=
  ⟨c6_text_field_normalization.1 (some "  Hi  ".toList),
   c6_text_field_normalization.2.1 (some " Find it ".toList) "Find it".toList rfl,
   c6_text_field_normalization.2.2 (some " ok ".toList) "ok".toList rfl⟩

/-! ## C1: trip creation seeds the day rows -/

theorem createTripGo_created (gen : Nat → Str × Str) (d : TripCreateData) (st : DbState)
    (attempt fuel : Nat) (st' : DbState) (tid : Str)
    (h : createTripGo gen d st attempt fuel = (st', .created tid)) :
    ∃ jc, tripTxn st d tid jc = some st' := by
  induction fuel generalizing attempt with
  | zero =>
    simp only [createTripGo] at h
    exact absurd h (by simp)
  | succ fuel ih =>
    simp only [createTripGo] at h
    generalize htx : tripTxn st d (gen attempt).2 (gen attempt).1 = res at h
    cases res with
    | none =>
      have h' : (if attempt < 9 then createTripGo gen d st (attempt + 1) fuel
          else (st, CreateOutcome.rethrownCollision)) = (st', CreateOutcome.created tid) := h
      split at h'
      · exact ih (attempt + 1) h'
      · exact absurd h' (by simp)
    | some st2 =>
      have h' : (st2, CreateOutcome.created (gen attempt).2)
          = (st', CreateOutcome.created tid) := h
      simp only [Prod.mk.injEq, CreateOutcome.created.injEq] at h'
      obtain ⟨h1, h2⟩ := h'
      rw [← h1, ← h2]
      exact ⟨(gen attempt).1, htx⟩

/-- C1: for every valid trip-creation input (name and destination
non-empty, day count 1–60, start date absent or parsed), a successful
`createTripRecord` appends exactly `dayCount` day rows numbered
`1..dayCount`; with a start date, day `n` is dated start + (n−1) days,
and with no start date every day's date is null. -/
theorem c1_trip_days (name dest : Option Str) (nm dn : Str) (dcRaw : Option Int)
    (c : Int) (start : Option Int) (uid : Str) (gen : Nat → Str × Str)
    (st st' : DbState) (tid : Str)
    (hname : normalizeTripName name = .ok nm)
    (hdest : normalizeDestination dest = .ok dn)
    (hdc : normalizeDayCount dcRaw = .ok c)
    (hcreate : createTripRecord gen ⟨nm, dn, start, c, uid⟩ st = (st', .created tid)) :
    st'.days = st.days ++ buildTripDayRows tid start c
    ∧ (buildTripDayRows tid start c).length = c.toNat
    ∧ (buildTripDayRows tid start c).map TripDayRow.dayNumber
        = (List.range c.toNat).map (fun (i : Nat) => (i : Int) + 1)
    ∧ (∀ r ∈ buildTripDayRows tid start c,
        r.tripDate = start.map (fun s0 => s0 + (r.dayNumber - 1)))
    ∧ (start = none → ∀ r ∈ buildTripDayRows tid start c, r.tripDate = none) := by
  obtain ⟨jc, htx⟩ := createTripGo_created gen _ st 0 10 st' tid hcreate
  unfold tripTxn at htx
  split at htx
  · exact absurd htx (by simp)
  · simp only [Option.some.injEq] at htx
    refine ⟨?_, ?_, ?_, ?_, ?_⟩
    · rw [← htx]
    · simp only [buildTripDayRows]
      rw [List.length_map, List.length_range]
    · simp only [buildTripDayRows]
      rw [List.map_map]
      rfl
    · intro r hr
      simp only [buildTripDayRows, List.mem_map] at hr
      obtain ⟨i, _, hi⟩ := hr
      rw [← hi]
      simp [addDaysUtc]
    · intro hnone r hr
      simp only [buildTripDayRows, List.mem_map] at hr
      obtain ⟨i, _, hi⟩ := hr
      rw [← hi, hnone]
      simp

/-- C1 witness: a concrete creation with 3 days starting at epoch
day 100. -/
theorem c1_trip_days_witness :
    let st' := (createTripRecord (fun _ => ("AAAA2345".toList, "t1".toList))
      ⟨"Trip".toList, "Oslo".toList, some 100, 3, "u1".toList⟩
      ⟨[], [], [], [], [], [], []⟩).1
    st'.days = [] ++ buildTripDayRows "t1".toList (some 100) 3
    ∧ (buildTripDayRows "t1".toList (some 100) 3).length = (3 : Int).toNat
    ∧ (buildTripDayRows "t1".toList (some 100) 3).map TripDayRow.dayNumber
        = (List.range (3 : Int).toNat).map (fun (i : Nat) => (i : Int) + 1)
    ∧ (∀ r ∈ buildTripDayRows "t1".toList (some 100) 3,
        r.tripDate = (some 100).map (fun s0 => s0 + (r.dayNumber - 1)))
    ∧ ((some 100 : Option Int) = none →
        ∀ r ∈ buildTripDayRows "t1".toList (some 100) 3, r.tripDate = none) :=
  c1_trip_days (some "Trip".toList) (some "Oslo".toList) "Trip".toList "Oslo".toList
    (some 3) 3 (some 100) "u1".toList (fun _ => ("AAAA2345".toList, "t1".toList))
    ⟨[], [], [], [], [], [], []⟩ _ "t1".toList rfl rfl rfl rfl

/-! ## C2: join-code collision retry and budget exhaustion -/

/-- A state already holding a trip whose join code is `AAAA2345`. -/
def c2State : DbState :=
  { trips := [⟨"t1".toList, "AAAA2345".toList, "Old".toList, "Bergen".toList,
      none, 1, "u9".toList, false⟩],
    members := [], days := [], posts := [], crawlLocs := [], votes := [], comments := [] }

/-- The trip being created during the collision scenarios. -/
def c2Data : TripCreateData :=
  ⟨"Trip".toList, "Oslo".toList, none, 2, "u1".toList⟩

/-- A code generator that always draws the already-taken code. -/
def c2GenCollide : Nat → Str × Str :=
  fun _ => ("AAAA2345".toList, "t2".toList)

/-- A code generator that collides on the first draw and is fresh from
the second draw on. -/
def c2GenRetry : Nat → Str × Str :=
  fun n => if n = 0 then ("AAAA2345".toList, "t2".toList) else ("BBBB2345".toList, "t2".toList)

/-- C2: the retry loop of `createTripRecord` evaluated on both collision
scenarios. A first-attempt collision leaves the state untouched and the
second attempt creates the complete trip (row, owner membership, day
rows) exactly once. But when all ten attempts collide, the `attempt < 9`
guard makes the loop rethrow the raw unique-violation error — surfaced
by the global handler as 500 `Unexpected server error.` — instead of
reaching the dedicated `ApiError` 500 `Unable to generate a unique join
code.`, which is unreachable. -/
theorem c2_join_code_retry_exhaustion :
    createTripRecord c2GenRetry c2Data c2State =
      ({ c2State with
          trips := c2State.trips ++
            [⟨"t2".toList, "BBBB2345".toList, "Trip".toList, "Oslo".toList,
              none, 2, "u1".toList, false⟩]
          members := [⟨"t2".toList, "u1".toList, "OWNER".toList, true⟩]
          days := buildTripDayRows "t2".toList none 2 }, .created "t2".toList)
    ∧ createTripRecord c2GenCollide c2Data c2State = (c2State, .rethrownCollision)
    ∧ createOutcomeError .rethrownCollision = some ⟨500, "Unexpected server error.".toList⟩
    ∧ createOutcomeError .exhausted =
        some ⟨500, "Unable to generate a unique join code.".toList⟩
    ∧ "Unexpected server error.".toList ≠ "Unable to generate a unique join code.".toList :=
  ⟨rfl, rfl, rfl, rfl, by decide⟩

/-! ## C9: display-name resolution priority -/

theorem jsOr_eq_ite (a b : Str) : jsOr a b = if a ≠ [] then a else b := by
  unfold jsOr
  by_cases h : a = [] <;> simp [h]

theorem jsOr_nil (b : Str) : jsOr [] b = b := by
  simp [jsOr]

theorem specNameValue_ne_nil (w : Option Str) (hw : toTrimmedString w ≠ []) :
    specNameValue w ≠ [] := by
  unfold specNameValue
  rw [Ne, List.take_eq_nil_iff]
  simp [hw]

theorem normalizeEditableDisplayName_eq (v : Option Str) :
    normalizeEditableDisplayName v =
      if specNameAcceptable v then specNameValue v else [] := by
  have hidem : toTrimmedString (some (toTrimmedString v)) = toTrimmedString v := by
    unfold toTrimmedString
    simp only [Option.getD_some]
    exact jsTrim_idem _
  by_cases h1 : toTrimmedString v = []
  · rw [if_neg (fun hacc => hacc.1 h1)]
    simp only [normalizeEditableDisplayName, h1]
    simp
  · by_cases h2 : isEmailLike (toTrimmedString v) = true
    · rw [if_neg (fun hacc => absurd hacc.2 (by simp [h2]))]
      simp only [normalizeEditableDisplayName]
      simp [h1, h2]
    · rw [if_pos ⟨h1, by simpa using h2⟩]
      simp only [normalizeEditableDisplayName, normalizeDisplayName, specNameValue]
      rw [hidem]
      simp [h1, h2]

/-- C9: for every combination of caller-supplied name, stored name, and
token name/nickname claims, the resolver's effective display name is
exactly the specification's priority chain: caller name if non-empty
after trimming and not email-shaped, else the stored name (same
filter), else the token's name claim (or nickname when the name claim
is blank, same filter), else the literal `Traveler`. -/
theorem c9_display_name_priority (p e n k : Option Str) :
    resolveDisplayName p e n k = specDisplayName p e n k := by
  simp only [resolveDisplayName, specDisplayName, getAuthClaimString,
    normalizeEditableDisplayName_eq]
  rw [jsOr_eq_ite (toTrimmedString n) (toTrimmedString k)]
  by_cases hpa : specNameAcceptable p
  · rw [if_pos hpa, if_pos hpa, jsOr_eq_ite, if_pos (specNameValue_ne_nil p hpa.1)]
  · rw [if_neg hpa, if_neg hpa, jsOr_nil]
    by_cases hpe : specNameAcceptable e
    · rw [if_pos hpe, if_pos hpe, jsOr_eq_ite, if_pos (specNameValue_ne_nil e hpe.1)]
    · rw [if_neg hpe, if_neg hpe, jsOr_nil]
      by_cases hpt : specNameAcceptable
          (some (if toTrimmedString n ≠ [] then toTrimmedString n else toTrimmedString k))
      · rw [if_pos hpt, if_pos hpt, jsOr_eq_ite, if_pos (specNameValue_ne_nil _ hpt.1)]
      · rw [if_neg hpt, if_neg hpt, jsOr_nil]

/-! ## Posts route: error-status and inversion lemmas -/

theorem normalizeDayCount_error (v : Option Int) (e : ApiErr)
    (h : normalizeDayCount v = .error e) : e.status = 400 := by
  unfold normalizeDayCount at h
  repeat' split at h
  all_goals first
    | exact Except.noConfusion h
    | (simp only [Except.error.injEq] at h; subst h; rfl)

theorem normalizePostType_error (v : Option Str) (e : ApiErr)
    (h : normalizePostType v = .error e) : e.status = 400 := by
  simp only [normalizePostType] at h
  split at h
  · exact Except.noConfusion h
  · simp only [Except.error.injEq] at h
    subst h
    rfl

theorem normalizeTime_error (v : Option Str) (e : ApiErr)
    (h : normalizeTime v = .error e) : e.status = 400 := by
  simp only [normalizeTime] at h
  repeat' split at h
  all_goals first
    | exact Except.noConfusion h
    | (simp only [Except.error.injEq] at h; subst h; rfl)

theorem normalizeLatitude_error (v : JsNum) (e : ApiErr)
    (h : normalizeLatitude v = .error e) : e.status = 400 := by
  unfold normalizeLatitude at h
  repeat' split at h
  all_goals first
    | exact Except.noConfusion h
    | (simp only [Except.error.injEq] at h; subst h; rfl)

theorem normalizeLongitude_error (v : JsNum) (e : ApiErr)
    (h : normalizeLongitude v = .error e) : e.status = 400 := by
  unfold normalizeLongitude at h
  repeat' split at h
  all_goals first
    | exact Except.noConfusion h
    | (simp only [Except.error.injEq] at h; subst h; rfl)

theorem normalizeCrawlEntry_error (entry : CrawlEntry) (index : Nat) (e : ApiErr)
    (h : normalizeCrawlEntry entry index = .error e) : e.status = 400 := by
  simp only [normalizeCrawlEntry] at h
  repeat' split at h
  all_goals first
    | exact Except.noConfusion h
    | (simp only [Except.error.injEq] at h
       subst h
       first
         | rfl
         | exact normalizeLatitude_error entry.latitude _ (by assumption)
         | exact normalizeLongitude_error entry.longitude _ (by assumption))

theorem normalizeCrawlEntries_error (entries : List CrawlEntry) (index : Nat) (e : ApiErr)
    (h : normalizeCrawlEntries entries index = .error e) : e.status = 400 := by
  induction entries generalizing index e with
  | nil =>
    simp only [normalizeCrawlEntries] at h
    exact Except.noConfusion h
  | cons entry rest ih =>
    simp only [normalizeCrawlEntries] at h
    repeat' split at h
    all_goals first
      | exact Except.noConfusion h
      | (simp only [Except.error.injEq] at h
         subst h
         first
           | rfl
           | exact normalizeCrawlEntry_error entry index _ (by assumption)
           | exact ih (index + 1) _ (by assumption))

theorem normalizeCrawlLocations_error (v : CrawlInput) (e : ApiErr)
    (h : normalizeCrawlLocations v = .error e) : e.status = 400 := by
  unfold normalizeCrawlLocations at h
  repeat' split at h
  all_goals first
    | exact Except.noConfusion h
    | exact normalizeCrawlEntries_error _ 0 _ h
    | (simp only [Except.error.injEq] at h; subst h; rfl)

set_option maxHeartbeats 1600000 in
/-- Every error `normalizePostPayload` can produce is a 400 client
error: the route's validation rejections all precede the membership
check, the day lookup, and every database write. -/
theorem normalizePostPayload_error (req : PostReq) (e : ApiErr)
    (h : normalizePostPayload req = .error e) : e.status = 400 := by
  simp only [normalizePostPayload] at h
  repeat' split at h
  all_goals first
    | exact Except.noConfusion h
    | (simp only [Except.error.injEq] at h
       subst h
       first
         | rfl
         | exact normalizeDayCount_error req.dayNumber _ (by assumption)
         | exact normalizePostType_error req.postType _ (by assumption)
         | exact normalizeTime_error req.fromTime _ (by assumption)
         | exact normalizeTime_error req.toTime _ (by assumption)
         | exact normalizeLatitude_error req.latitude _ (by assumption)
         | exact normalizeLongitude_error req.longitude _ (by assumption)
         | exact normalizeCrawlLocations_error req.crawlLocations _ (by assumption))

set_option maxHeartbeats 1600000 in
/-- Inversion of a successful `normalizePostPayload`: how each stored
field relates to the request, and the negation of every validation
rejection the route checks. -/
theorem normalizePostPayload_ok (req : PostReq) (p : PostPayload)
    (h : normalizePostPayload req = .ok p) :
    normalizeDayCount req.dayNumber = .ok p.dayNumber
    ∧ normalizePostType req.postType = .ok p.postType
    ∧ p.title = (toTrimmedString req.title).take 200
    ∧ p.body = toTrimmedString req.body
    ∧ p.eventName = (toTrimmedString req.eventName).take 200
    ∧ normalizeTime req.fromTime = .ok p.fromTime
    ∧ normalizeTime req.toTime = .ok p.toTime
    ∧ p.locationName = (toTrimmedString req.locationName).take 200
    ∧ normalizeLatitude req.latitude = .ok p.latitude
    ∧ normalizeLongitude req.longitude = .ok p.longitude
    ∧ normalizeCrawlLocations req.crawlLocations = .ok p.crawlLocations
    ∧ ¬(p.postType = "SUGGESTION".toList ∧ p.title = [] ∧ p.body = [] ∧ req.imageCount = 0)
    ∧ ¬(p.postType = "EVENT".toList ∧ (p.eventName = [] ∨ p.fromTime = none ∨ p.toTime = none))
    ∧ ¬(p.postType = "EVENT".toList ∧ timesOutOfOrder p.fromTime p.toTime = true)
    ∧ ¬(p.postType = "CRAWL".toList ∧ p.title = [])
    ∧ ¬(p.postType = "CRAWL".toList ∧ (p.fromTime = none ∨ p.toTime = none))
    ∧ ¬(p.postType = "CRAWL".toList ∧ timesOutOfOrder p.fromTime p.toTime = true)
    ∧ ¬(p.postType = "CRAWL".toList ∧ p.crawlLocations = []) := by
  simp only [normalizePostPayload] at h
  repeat' split at h
  all_goals first
    | exact Except.noConfusion h
    | (simp only [Except.ok.injEq] at h
       subst h
       refine ⟨?_, ?_, ?_, ?_, ?_, ?_, ?_, ?_, ?_, ?_, ?_, ?_, ?_, ?_, ?_, ?_, ?_, ?_⟩ <;>
         first | assumption | rfl)

set_option maxHeartbeats 1600000 in
/-- Construction of a successful `normalizePostPayload` from successful
field normalizations and the negation of every validation rejection. -/
theorem normalizePostPayload_accept (req : PostReq) (dayNumber : Int) (postType : Str)
    (fromTime toTime : Option Str) (latitude longitude : Option Rat) (locs : List CrawlLoc)
    (hdc : normalizeDayCount req.dayNumber = .ok dayNumber)
    (hpt : normalizePostType req.postType = .ok postType)
    (hft : normalizeTime req.fromTime = .ok fromTime)
    (htt : normalizeTime req.toTime = .ok toTime)
    (hla : normalizeLatitude req.latitude = .ok latitude)
    (hlo : normalizeLongitude req.longitude = .ok longitude)
    (hcl : normalizeCrawlLocations req.crawlLocations = .ok locs)
    (hs1 : ¬(postType = "SUGGESTION".toList ∧ (toTrimmedString req.title).take 200 = []
      ∧ toTrimmedString req.body = [] ∧ req.imageCount = 0))
    (he1 : ¬(postType = "EVENT".toList ∧ ((toTrimmedString req.eventName).take 200 = []
      ∨ fromTime = none ∨ toTime = none)))
    (he2 : ¬(postType = "EVENT".toList ∧ timesOutOfOrder fromTime toTime = true))
    (hc1 : ¬(postType = "CRAWL".toList ∧ (toTrimmedString req.title).take 200 = []))
    (hc2 : ¬(postType = "CRAWL".toList ∧ (fromTime = none ∨ toTime = none)))
    (hc3 : ¬(postType = "CRAWL".toList ∧ timesOutOfOrder fromTime toTime = true))
    (hc4 : ¬(postType = "CRAWL".toList ∧ locs = []))
    (hs2 : ¬(postType = "SUGGESTION".toList ∧ (fromTime ≠ none ∨ toTime ≠ none)
      ∧ (fromTime = none ∨ toTime = none)))
    (hs3 : ¬(postType = "SUGGESTION".toList ∧ timesOutOfOrder fromTime toTime = true)) :
    normalizePostPayload req = .ok
      ⟨dayNumber, postType, (toTrimmedString req.title).take 200, toTrimmedString req.body,
        (toTrimmedString req.eventName).take 200, fromTime, toTime,
        (toTrimmedString req.locationName).take 200, latitude, longitude, locs⟩ := by
  simp only [normalizePostPayload, hdc, hpt, hft, htt, hla, hlo, hcl]
  rw [if_neg hs1, if_neg he1, if_neg he2, if_neg hc1, if_neg hc2, if_neg hc3, if_neg hc4,
    if_neg hs2, if_neg hs3]

/-- Inversion of a successful `normalizeCrawlEntry`. -/
theorem normalizeCrawlEntry_ok (entry : CrawlEntry) (index : Nat) (loc : CrawlLoc)
    (h : normalizeCrawlEntry entry index = .ok loc) :
    loc.sortOrder = index
    ∧ loc.locationName = (toTrimmedString entry.locationName).take 200
    ∧ loc.locationName ≠ []
    ∧ normalizeLatitude entry.latitude = .ok loc.latitude
    ∧ normalizeLongitude entry.longitude = .ok loc.longitude := by
  simp only [normalizeCrawlEntry] at h
  repeat' split at h
  all_goals first
    | exact Except.noConfusion h
    | (simp only [Except.ok.injEq] at h
       subst h
       refine ⟨rfl, rfl, by assumption, by assumption, by assumption⟩)

/-- A successful `normalizeCrawlEntries` run means every entry's name
was non-blank and its coordinates were accepted. -/
theorem normalizeCrawlEntries_ok_entries (entries : List CrawlEntry) (index : Nat)
    (locs : List CrawlLoc) (h : normalizeCrawlEntries entries index = .ok locs) :
    ∀ entry ∈ entries, (toTrimmedString entry.locationName).take 200 ≠ []
      ∧ (∃ la, normalizeLatitude entry.latitude = .ok la)
      ∧ (∃ lo, normalizeLongitude entry.longitude = .ok lo) := by
  induction entries generalizing index locs with
  | nil => intro entry he; exact absurd he (List.not_mem_nil entry)
  | cons e0 rest ih =>
    intro entry he
    simp only [normalizeCrawlEntries] at h
    generalize he0 : normalizeCrawlEntry e0 index = r0 at h
    cases r0 with
    | error e1 => exact Except.noConfusion h
    | ok loc0 =>
      generalize hrest : normalizeCrawlEntries rest (index + 1) = rr at h
      cases rr with
      | error e1 => exact Except.noConfusion h
      | ok locs0 =>
        rw [List.mem_cons] at he
        cases he with
        | inl hee =>
          subst hee
          obtain ⟨_, hname, hne, hla, hlo⟩ := normalizeCrawlEntry_ok entry index loc0 he0
          exact ⟨by rw [← hname]; exact hne, ⟨loc0.latitude, hla⟩, ⟨loc0.longitude, hlo⟩⟩
        | inr hee => exact ih (index + 1) locs0 hrest entry hee

/-- A successful `normalizeCrawlEntries` run yields one stop per entry,
and its first stop carries `sortOrder = index`. -/
theorem normalizeCrawlEntries_ok_shape (entries : List CrawlEntry) (index : Nat)
    (locs : List CrawlLoc) (h : normalizeCrawlEntries entries index = .ok locs) :
    locs.length = entries.length
    ∧ (∀ hd, locs.head? = some hd → hd.sortOrder = index) := by
  induction entries generalizing index locs with
  | nil =>
    simp only [normalizeCrawlEntries, Except.ok.injEq] at h
    subst h
    constructor
    · rfl
    · intro hd0 hhd0
      exact absurd hhd0 (by simp)
  | cons e0 rest ih =>
    simp only [normalizeCrawlEntries] at h
    generalize he0 : normalizeCrawlEntry e0 index = r0 at h
    cases r0 with
    | error e1 => exact Except.noConfusion h
    | ok loc0 =>
      generalize hrest : normalizeCrawlEntries rest (index + 1) = rr at h
      cases rr with
      | error e1 => exact Except.noConfusion h
      | ok locs0 =>
        simp only [Except.ok.injEq] at h
        subst h
        refine ⟨?_, ?_⟩
        · rw [List.length_cons, List.length_cons, (ih (index + 1) locs0 hrest).1]
        · intro hd hhd
          simp only [List.head?_cons, Option.some.injEq] at hhd
          rw [← hhd]
          exact (normalizeCrawlEntry_ok e0 index loc0 he0).1

/-- Construction of a successful `normalizeCrawlEntries` run from valid
entries. -/
theorem normalizeCrawlEntries_ok_of (entries : List CrawlEntry) (index : Nat)
    (h : ∀ entry ∈ entries, (toTrimmedString entry.locationName).take 200 ≠ []
      ∧ (∃ la, normalizeLatitude entry.latitude = .ok la)
      ∧ (∃ lo, normalizeLongitude entry.longitude = .ok lo)) :
    ∃ locs, normalizeCrawlEntries entries index = .ok locs
      ∧ locs.length = entries.length := by
  induction entries generalizing index with
  | nil => exact ⟨[], rfl, rfl⟩
  | cons e0 rest ih =>
    obtain ⟨hname, ⟨la, hla⟩, ⟨lo, hlo⟩⟩ := h e0 (List.mem_cons_self e0 rest)
    obtain ⟨locs0, hlocs0, hlen0⟩ :=
      ih (index + 1) (fun entry he => h entry (List.mem_cons_of_mem e0 he))
    refine ⟨⟨(toTrimmedString e0.locationName).take 200, la, lo, index⟩ :: locs0, ?_, ?_⟩
    · simp only [normalizeCrawlEntries, normalizeCrawlEntry]
      rw [if_neg hname, hla, hlo, hlocs0]
    · rw [List.length_cons, List.length_cons, hlen0]

/-- Inversion of a successful `normalizeCrawlLocations` on an array
payload. -/
theorem normalizeCrawlLocations_ok_arr (entries : List CrawlEntry) (locs : List CrawlLoc)
    (h : normalizeCrawlLocations (.arr entries) = .ok locs) :
    entries.length ≤ maxCrawlLocationsPerPost
    ∧ normalizeCrawlEntries entries 0 = .ok locs := by
  simp only [normalizeCrawlLocations] at h
  split at h
  · exact Except.noConfusion h
  · refine ⟨?_, h⟩
    rename_i hgt
    simp only [gt_iff_lt, not_lt] at hgt
    exact hgt

/-! ## `createPost` helper lemmas -/

theorem createPost_error_of_payload (req : PostReq) (st : DbState)
    (tripId userId postId : Str) (e : ApiErr)
    (h : normalizePostPayload req = .error e) :
    createPost req st tripId userId postId = .error e := by
  unfold createPost
  rw [h]

theorem createPost_ok_of (req : PostReq) (st : DbState) (tripId userId postId : Str)
    (p : PostPayload) (day : TripDayRow) (sf st2 : Option Str)
    (hp : normalizePostPayload req = .ok p)
    (hm : isTripMember st tripId userId = true)
    (hd : st.days.find? (fun d => decide (d.tripId = tripId ∧ d.dayNumber = p.dayNumber))
      = some day)
    (htf : timeStringToDate p.fromTime = .ok sf)
    (htt2 : timeStringToDate p.toTime = .ok st2) :
    ∃ r, createPost req st tripId userId postId = .ok r := by
  simp only [createPost, hp, hm, hd, htf, htt2, Bool.true_eq_false, if_false]
  exact ⟨_, rfl⟩

theorem createPost_day_missing (req : PostReq) (st : DbState)
    (tripId userId postId : Str) (p : PostPayload)
    (hp : normalizePostPayload req = .ok p)
    (hm : isTripMember st tripId userId = true)
    (hd : st.days.find? (fun d => decide (d.tripId = tripId ∧ d.dayNumber = p.dayNumber))
      = none) :
    createPost req st tripId userId postId
      = .error ⟨404, "Selected day not found in trip.".toList⟩ := by
  simp only [createPost, hp, hm, hd, Bool.true_eq_false, if_false]

/-- Inversion of a successful `createPost`: the payload validated, the
day resolved, and the stored row is exactly the one the transaction
wrote. -/
theorem createPost_ok_inv (req : PostReq) (st : DbState) (tripId userId postId : Str)
    (st' : DbState) (row : FeedPostRow)
    (h : createPost req st tripId userId postId = .ok (st', row)) :
    ∃ p day, normalizePostPayload req = .ok p
      ∧ st.days.find? (fun d => decide (d.tripId = tripId ∧ d.dayNumber = p.dayNumber))
          = some day
      ∧ row = buildFeedPostRow p tripId userId postId day := by
  cases hp : normalizePostPayload req with
  | error e =>
    rw [createPost_error_of_payload req st tripId userId postId e hp] at h
    exact Except.noConfusion h
  | ok p =>
    simp only [createPost, hp] at h
    cases hm : isTripMember st tripId userId with
    | false =>
      simp only [hm] at h
      simp at h
    | true =>
      simp only [hm, Bool.true_eq_false, if_false] at h
      cases hd : st.days.find?
          (fun d => decide (d.tripId = tripId ∧ d.dayNumber = p.dayNumber)) with
      | none =>
        rw [hd] at h
        exact Except.noConfusion h
      | some day =>
        rw [hd] at h
        generalize htf : timeStringToDate p.fromTime = rf at h
        cases rf with
        | error e => exact Except.noConfusion h
        | ok sf =>
          generalize htt2 : timeStringToDate p.toTime = rt at h
          cases rt with
          | error e => exact Except.noConfusion h
          | ok st2 =>
            simp only [Except.ok.injEq, Prod.mk.injEq] at h
            exact ⟨p, day, rfl, hd, h.2.symm⟩

/-! ## C4: EVENT post validation -/

/-- C4: EVENT post validation. (1) Every EVENT payload whose event name
trims empty, or whose `fromTime`/`toTime` is missing, or whose `toTime`
is not strictly after its `fromTime`, is rejected with a 400 client
error — before any write, for every database state. (2) An EVENT payload
with all fields valid — `toTime` strictly after `fromTime`, both within
`timeStringToDate`'s hour/minute ranges — is accepted when the member
and day checks pass. (3) When the validated
payload's day number does not exist for the trip, the request fails
with 404 `Selected day not found in trip.`. -/
theorem c4_event_validation :
    (∀ (req : PostReq) (st : DbState) (tripId userId postId : Str),
      normalizePostType req.postType = .ok "EVENT".toList →
      (toTrimmedString req.eventName = []
        ∨ normalizeTime req.fromTime = .ok none
        ∨ normalizeTime req.toTime = .ok none
        ∨ (∃ ft tt, normalizeTime req.fromTime = .ok (some ft)
            ∧ normalizeTime req.toTime = .ok (some tt) ∧ strLtB ft tt = false)) →
      ∃ e, createPost req st tripId userId postId = .error e ∧ e.status = 400)
    ∧ (∀ (req : PostReq) (st : DbState) (tripId userId postId : Str)
        (dayNumber : Int) (ft tt : Str) (latitude longitude : Option Rat)
        (locs : List CrawlLoc) (day : TripDayRow),
        normalizeDayCount req.dayNumber = .ok dayNumber →
        normalizePostType req.postType = .ok "EVENT".toList →
        toTrimmedString req.eventName ≠ [] →
        normalizeTime req.fromTime = .ok (some ft) →
        normalizeTime req.toTime = .ok (some tt) →
        strLtB ft tt = true →
        timeStringToDate (some ft) = .ok (some ft) →
        timeStringToDate (some tt) = .ok (some tt) →
        normalizeLatitude req.latitude = .ok latitude →
        normalizeLongitude req.longitude = .ok longitude →
        normalizeCrawlLocations req.crawlLocations = .ok locs →
        isTripMember st tripId userId = true →
        st.days.find? (fun d => decide (d.tripId = tripId ∧ d.dayNumber = dayNumber))
          = some day →
        ∃ r, createPost req st tripId userId postId = .ok r)
    ∧ (∀ (req : PostReq) (st : DbState) (tripId userId postId : Str) (p : PostPayload),
        normalizePostPayload req = .ok p →
        p.postType = "EVENT".toList →
        isTripMember st tripId userId = true →
        st.days.find? (fun d => decide (d.tripId = tripId ∧ d.dayNumber = p.dayNumber))
          = none →
        createPost req st tripId userId postId
          = .error ⟨404, "Selected day not found in trip.".toList⟩) := by
  refine ⟨?_, ?_, ?_⟩
  · intro req st tripId userId postId hevt hbad
    cases hres : normalizePostPayload req with
    | error e =>
      exact ⟨e, createPost_error_of_payload req st tripId userId postId e hres,
        normalizePostPayload_error req e hres⟩
    | ok p =>
      exfalso
      obtain ⟨hdc, hpt, htitle, hbody, hev, hft, htt, hloc, hla, hlo, hcl,
        hng1, hng2, hng3, hng4, hng5, hng6, hng7⟩ := normalizePostPayload_ok req p hres
      have hptv : p.postType = "EVENT".toList := Except.ok.inj (hpt.symm.trans hevt)
      rcases hbad with hname | hft0 | htt0 | ⟨ft, tt, hf0, ht0, hlt0⟩
      · apply hng2
        refine ⟨hptv, Or.inl ?_⟩
        rw [hev, hname]
        rfl
      · exact hng2 ⟨hptv, Or.inr (Or.inl (Except.ok.inj (hft.symm.trans hft0)))⟩
      · exact hng2 ⟨hptv, Or.inr (Or.inr (Except.ok.inj (htt.symm.trans htt0)))⟩
      · apply hng3
        refine ⟨hptv, ?_⟩
        have hfv : p.fromTime = some ft := Except.ok.inj (hft.symm.trans hf0)
        have htv : p.toTime = some tt := Except.ok.inj (htt.symm.trans ht0)
        rw [hfv, htv]
        simp [timesOutOfOrder, hlt0]
  · intro req st tripId userId postId dayNumber ft tt latitude longitude locs day
      hdc hevt hname hft htt hlt hvf hvt hla hlo hcl hm hd
    refine createPost_ok_of req st tripId userId postId _ day (some ft) (some tt)
      (normalizePostPayload_accept req dayNumber "EVENT".toList (some ft) (some tt)
        latitude longitude locs hdc hevt hft htt hla hlo hcl
        ?_ ?_ ?_ ?_ ?_ ?_ ?_ ?_ ?_) hm hd hvf hvt
    · exact fun hx => absurd hx.1 (by decide)
    · rintro ⟨-, hx | hx | hx⟩
      · rw [List.take_eq_nil_iff] at hx
        rcases hx with hx | hx
        · exact absurd hx (by decide)
        · exact hname hx
      · exact Option.noConfusion hx
      · exact Option.noConfusion hx
    · rintro ⟨-, hx⟩
      simp [timesOutOfOrder, hlt] at hx
    · exact fun hx => absurd hx.1 (by decide)
    · exact fun hx => absurd hx.1 (by decide)
    · exact fun hx => absurd hx.1 (by decide)
    · exact fun hx => absurd hx.1 (by decide)
    · exact fun hx => absurd hx.1 (by decide)
    · exact fun hx => absurd hx.1 (by decide)
  · intro req st tripId userId postId p hp hevtp hm hd
    exact createPost_day_missing req st tripId userId postId p hp hm hd

/-- A sample state with one member and one trip day, used by the
posts-route witnesses. -/
def postSampleState : DbState :=
  { trips := [], members := [⟨"t1".toList, "u1".toList, "MEMBER".toList, true⟩],
    days := [⟨"t1".toList, 1, none, "Day 1".toList⟩],
    posts := [], crawlLocs := [], votes := [], comments := [] }

/-- A valid EVENT post request with `toTime` one minute after
`fromTime`. -/
def eventSampleReq : PostReq :=
  { dayNumber := some 1, postType := some "EVENT".toList, title := none, body := none,
    eventName := some "Dinner".toList, fromTime := some "10:00".toList,
    toTime := some "10:01".toList, locationName := none, latitude := .blank,
    longitude := .blank, crawlLocations := .absent, imageCount := 0 }

/-- The same EVENT request with `toTime` missing. -/
def eventMissingToReq : PostReq :=
  { eventSampleReq with toTime := none }

/-- C4 witness: the concrete missing-`toTime` EVENT request is rejected
with 400 and the one-minute-window request is accepted. -/
theorem c4_event_validation_witness :
    (∃ e, createPost eventMissingToReq postSampleState "t1".toList "u1".toList "p1".toList
        = .error e ∧ e.status = 400)
    ∧ (∃ r, createPost eventSampleReq postSampleState "t1".toList "u1".toList "p1".toList
        = .ok r) :=
  ⟨c4_event_validation.1 eventMissingToReq postSampleState "t1".toList "u1".toList
      "p1".toList rfl (Or.inr (Or.inr (Or.inl rfl))),
   c4_event_validation.2.1 eventSampleReq postSampleState "t1".toList "u1".toList
      "p1".toList 1 "10:00:00".toList "10:01:00".toList none none []
      ⟨"t1".toList, 1, none, "Day 1".toList⟩
      rfl rfl (by decide) rfl rfl (by decide) rfl rfl rfl rfl rfl rfl rfl⟩

/-! ## C5: CRAWL post validation -/

/-- C5: CRAWL post validation. (1) A CRAWL payload whose stop list
normalizes to zero stops is rejected 400. (2) One with thirteen or more
proposed stops is rejected 400. (3) One whose title trims empty is
rejected 400. (4) One missing a time bound, or whose end is not
strictly after its start, is rejected 400. (5) One with a stop whose
location name trims empty or whose coordinate is out of latitude or
longitude range is rejected 400. (6) One with up to exactly twelve
valid stops, a title, and ordered time bounds within
`timeStringToDate`'s hour/minute ranges is accepted. -/
theorem c5_crawl_validation :
    (∀ (req : PostReq) (st : DbState) (tripId userId postId : Str),
      normalizePostType req.postType = .ok "CRAWL".toList →
      normalizeCrawlLocations req.crawlLocations = .ok [] →
      ∃ e, createPost req st tripId userId postId = .error e ∧ e.status = 400)
    ∧ (∀ (req : PostReq) (st : DbState) (tripId userId postId : Str)
        (entries : List CrawlEntry),
      normalizePostType req.postType = .ok "CRAWL".toList →
      req.crawlLocations = .arr entries →
      13 ≤ entries.length →
      ∃ e, createPost req st tripId userId postId = .error e ∧ e.status = 400)
    ∧ (∀ (req : PostReq) (st : DbState) (tripId userId postId : Str),
      normalizePostType req.postType = .ok "CRAWL".toList →
      toTrimmedString req.title = [] →
      ∃ e, createPost req st tripId userId postId = .error e ∧ e.status = 400)
    ∧ (∀ (req : PostReq) (st : DbState) (tripId userId postId : Str),
      normalizePostType req.postType = .ok "CRAWL".toList →
      (normalizeTime req.fromTime = .ok none
        ∨ normalizeTime req.toTime = .ok none
        ∨ (∃ ft tt, normalizeTime req.fromTime = .ok (some ft)
            ∧ normalizeTime req.toTime = .ok (some tt) ∧ strLtB ft tt = false)) →
      ∃ e, createPost req st tripId userId postId = .error e ∧ e.status = 400)
    ∧ (∀ (req : PostReq) (st : DbState) (tripId userId postId : Str)
        (entries : List CrawlEntry) (entry : CrawlEntry),
      normalizePostType req.postType = .ok "CRAWL".toList →
      req.crawlLocations = .arr entries →
      entry ∈ entries →
      (toTrimmedString entry.locationName = []
        ∨ (∃ q, entry.latitude = .num q ∧ (q < -90 ∨ 90 < q))
        ∨ (∃ q, entry.longitude = .num q ∧ (q < -180 ∨ 180 < q))) →
      ∃ e, createPost req st tripId userId postId = .error e ∧ e.status = 400)
    ∧ (∀ (req : PostReq) (st : DbState) (tripId userId postId : Str)
        (dayNumber : Int) (ft tt : Str) (latitude longitude : Option Rat)
        (entries : List CrawlEntry) (day : TripDayRow),
      normalizeDayCount req.dayNumber = .ok dayNumber →
      normalizePostType req.postType = .ok "CRAWL".toList →
      toTrimmedString req.title ≠ [] →
      normalizeTime req.fromTime = .ok (some ft) →
      normalizeTime req.toTime = .ok (some tt) →
      strLtB ft tt = true →
      timeStringToDate (some ft) = .ok (some ft) →
      timeStringToDate (some tt) = .ok (some tt) →
      normalizeLatitude req.latitude = .ok latitude →
      normalizeLongitude req.longitude = .ok longitude →
      req.crawlLocations = .arr entries →
      entries ≠ [] →
      entries.length ≤ 12 →
      (∀ entry ∈ entries, (toTrimmedString entry.locationName).take 200 ≠ []
        ∧ (∃ la, normalizeLatitude entry.latitude = .ok la)
        ∧ (∃ lo, normalizeLongitude entry.longitude = .ok lo)) →
      isTripMember st tripId userId = true →
      st.days.find? (fun d => decide (d.tripId = tripId ∧ d.dayNumber = dayNumber))
        = some day →
      ∃ r, createPost req st tripId userId postId = .ok r) := by
  refine ⟨?_, ?_, ?_, ?_, ?_, ?_⟩
  · intro req st tripId userId postId hcrt hz
    cases hres : normalizePostPayload req with
    | error e =>
      exact ⟨e, createPost_error_of_payload req st tripId userId postId e hres,
        normalizePostPayload_error req e hres⟩
    | ok p =>
      exfalso
      obtain ⟨hdc, hpt, htitle, hbody, hev, hft, htt, hloc, hla, hlo, hcl,
        hng1, hng2, hng3, hng4, hng5, hng6, hng7⟩ := normalizePostPayload_ok req p hres
      have hptv : p.postType = "CRAWL".toList := Except.ok.inj (hpt.symm.trans hcrt)
      exact hng7 ⟨hptv, Except.ok.inj (hcl.symm.trans hz)⟩
  · intro req st tripId userId postId entries hcrt harr h13
    cases hres : normalizePostPayload req with
    | error e =>
      exact ⟨e, createPost_error_of_payload req st tripId userId postId e hres,
        normalizePostPayload_error req e hres⟩
    | ok p =>
      exfalso
      obtain ⟨hdc, hpt, htitle, hbody, hev, hft, htt, hloc, hla, hlo, hcl,
        hng1, hng2, hng3, hng4, hng5, hng6, hng7⟩ := normalizePostPayload_ok req p hres
      rw [harr] at hcl
      have hle := (normalizeCrawlLocations_ok_arr entries p.crawlLocations hcl).1
      unfold maxCrawlLocationsPerPost at hle
      omega
  · intro req st tripId userId postId hcrt hti
    cases hres : normalizePostPayload req with
    | error e =>
      exact ⟨e, createPost_error_of_payload req st tripId userId postId e hres,
        normalizePostPayload_error req e hres⟩
    | ok p =>
      exfalso
      obtain ⟨hdc, hpt, htitle, hbody, hev, hft, htt, hloc, hla, hlo, hcl,
        hng1, hng2, hng3, hng4, hng5, hng6, hng7⟩ := normalizePostPayload_ok req p hres
      have hptv : p.postType = "CRAWL".toList := Except.ok.inj (hpt.symm.trans hcrt)
      apply hng4
      refine ⟨hptv, ?_⟩
      rw [htitle, hti]
      rfl
  · intro req st tripId userId postId hcrt hbad
    cases hres : normalizePostPayload req with
    | error e =>
      exact ⟨e, createPost_error_of_payload req st tripId userId postId e hres,
        normalizePostPayload_error req e hres⟩
    | ok p =>
      exfalso
      obtain ⟨hdc, hpt, htitle, hbody, hev, hft, htt, hloc, hla, hlo, hcl,
        hng1, hng2, hng3, hng4, hng5, hng6, hng7⟩ := normalizePostPayload_ok req p hres
      have hptv : p.postType = "CRAWL".toList := Except.ok.inj (hpt.symm.trans hcrt)
      rcases hbad with hft0 | htt0 | ⟨ft, tt, hf0, ht0, hlt0⟩
      · exact hng5 ⟨hptv, Or.inl (Except.ok.inj (hft.symm.trans hft0))⟩
      · exact hng5 ⟨hptv, Or.inr (Except.ok.inj (htt.symm.trans htt0))⟩
      · apply hng6
        refine ⟨hptv, ?_⟩
        have hfv : p.fromTime = some ft := Except.ok.inj (hft.symm.trans hf0)
        have htv : p.toTime = some tt := Except.ok.inj (htt.symm.trans ht0)
        rw [hfv, htv]
        simp [timesOutOfOrder, hlt0]
  · intro req st tripId userId postId entries entry hcrt harr hmem hbad
    cases hres : normalizePostPayload req with
    | error e =>
      exact ⟨e, createPost_error_of_payload req st tripId userId postId e hres,
        normalizePostPayload_error req e hres⟩
    | ok p =>
      exfalso
      obtain ⟨hdc, hpt, htitle, hbody, hev, hft, htt, hloc, hla, hlo, hcl,
        hng1, hng2, hng3, hng4, hng5, hng6, hng7⟩ := normalizePostPayload_ok req p hres
      rw [harr] at hcl
      have hrun := (normalizeCrawlLocations_ok_arr entries p.crawlLocations hcl).2
      obtain ⟨hname, ⟨la, hlae⟩, ⟨lo, hloe⟩⟩ :=
        normalizeCrawlEntries_ok_entries entries 0 p.crawlLocations hrun entry hmem
      rcases hbad with hb | ⟨q, hq, hqr⟩ | ⟨q, hq, hqr⟩
      · apply hname
        rw [hb]
        rfl
      · rw [hq] at hlae
        simp only [normalizeLatitude] at hlae
        rw [if_pos (by rcases hqr with hqr | hqr; exact Or.inl hqr; exact Or.inr hqr)] at hlae
        exact Except.noConfusion hlae
      · rw [hq] at hloe
        simp only [normalizeLongitude] at hloe
        rw [if_pos (by rcases hqr with hqr | hqr; exact Or.inl hqr; exact Or.inr hqr)] at hloe
        exact Except.noConfusion hloe
  · intro req st tripId userId postId dayNumber ft tt latitude longitude entries day
      hdc hcrt hti hft htt hlt hvf hvt hla hlo harr hne h12 hvalid hm hd
    obtain ⟨locs, hlocs, hlen⟩ := normalizeCrawlEntries_ok_of entries 0 hvalid
    have hcl : normalizeCrawlLocations req.crawlLocations = .ok locs := by
      rw [harr]
      simp only [normalizeCrawlLocations]
      rw [if_neg (by unfold maxCrawlLocationsPerPost; omega)]
      exact hlocs
    have hlocsne : locs ≠ [] := by
      intro hnil
      rw [hnil] at hlen
      exact hne (List.eq_nil_of_length_eq_zero hlen.symm)
    refine createPost_ok_of req st tripId userId postId _ day (some ft) (some tt)
      (normalizePostPayload_accept req dayNumber "CRAWL".toList (some ft) (some tt)
        latitude longitude locs hdc hcrt hft htt hla hlo hcl
        ?_ ?_ ?_ ?_ ?_ ?_ ?_ ?_ ?_) hm hd hvf hvt
    · exact fun hx => absurd hx.1 (by decide)
    · exact fun hx => absurd hx.1 (by decide)
    · exact fun hx => absurd hx.1 (by decide)
    · rintro ⟨-, hx⟩
      rw [List.take_eq_nil_iff] at hx
      rcases hx with hx | hx
      · exact absurd hx (by decide)
      · exact hti hx
    · rintro ⟨-, hx | hx⟩
      · exact Option.noConfusion hx
      · exact Option.noConfusion hx
    · rintro ⟨-, hx⟩
      simp [timesOutOfOrder, hlt] at hx
    · exact fun hx => hlocsne hx.2
    · exact fun hx => absurd hx.1 (by decide)
    · exact fun hx => absurd hx.1 (by decide)

/-- A valid CRAWL post request with twelve identical stops. -/
def crawlBaseReq : PostReq :=
  { dayNumber := some 1, postType := some "CRAWL".toList, title := some "Crawl".toList,
    body := none, eventName := none, fromTime := some "18:00".toList,
    toTime := some "23:00".toList, locationName := none, latitude := .blank,
    longitude := .blank,
    crawlLocations := .arr (List.replicate 12 ⟨some "Stop".toList, .blank, .blank⟩),
    imageCount := 0 }

/-- C5 witness: twelve stops accepted, thirteen rejected with 400, zero
rejected with 400. -/
theorem c5_crawl_validation_witness :
    (∃ r, createPost crawlBaseReq postSampleState "t1".toList "u1".toList "p1".toList
        = .ok r)
    ∧ (∃ e, createPost
        { crawlBaseReq with
          crawlLocations := .arr (List.replicate 13 ⟨some "Stop".toList, .blank, .blank⟩) }
        postSampleState "t1".toList "u1".toList "p1".toList = .error e ∧ e.status = 400)
    ∧ (∃ e, createPost { crawlBaseReq with crawlLocations := .arr [] }
        postSampleState "t1".toList "u1".toList "p1".toList = .error e ∧ e.status = 400) :=
  ⟨c5_crawl_validation.2.2.2.2.2 crawlBaseReq postSampleState "t1".toList "u1".toList
      "p1".toList 1 "18:00:00".toList "23:00:00".toList none none
      (List.replicate 12 ⟨some "Stop".toList, .blank, .blank⟩)
      ⟨"t1".toList, 1, none, "Day 1".toList⟩
      rfl rfl (by decide) rfl rfl (by decide) rfl rfl rfl rfl rfl (by decide) (by decide)
      (fun entry he => by
        rw [List.eq_of_mem_replicate he]
        exact ⟨by decide, ⟨none, rfl⟩, ⟨none, rfl⟩⟩)
      rfl rfl,
   c5_crawl_validation.2.1
      { crawlBaseReq with
        crawlLocations := .arr (List.replicate 13 ⟨some "Stop".toList, .blank, .blank⟩) }
      postSampleState "t1".toList "u1".toList "p1".toList
      (List.replicate 13 ⟨some "Stop".toList, .blank, .blank⟩) rfl rfl (by decide),
   c5_crawl_validation.1 { crawlBaseReq with crawlLocations := .arr [] }
      postSampleState "t1".toList "u1".toList "p1".toList rfl rfl⟩

/-! ## C10: a CRAWL post's top-level location is its first stop -/

/-- C10: for every accepted CRAWL post, the stored row's top-level
`locationName`, `latitude`, and `longitude` are those of its first
crawl stop (the stop at sort order 0), as produced by the crawl-stop
normalization of the request — the client-supplied top-level location
fields play no part in them. -/
theorem c10_crawl_top_level_location (req : PostReq) (st : DbState)
    (tripId userId postId : Str) (st' : DbState) (row : FeedPostRow)
    (h : createPost req st tripId userId postId = .ok (st', row))
    (hcr : row.postType = "CRAWL".toList) :
    ∃ locs hd0, normalizeCrawlLocations req.crawlLocations = .ok locs
      ∧ locs.head? = some hd0
      ∧ hd0.sortOrder = 0
      ∧ row.locationName = some hd0.locationName
      ∧ row.latitude = hd0.latitude
      ∧ row.longitude = hd0.longitude := by
  obtain ⟨p, day, hp, hd, hrow⟩ := createPost_ok_inv req st tripId userId postId st' row h
  obtain ⟨hdc, hpt, htitle, hbody, hev, hft, htt, hloc, hla, hlo, hcl,
    hng1, hng2, hng3, hng4, hng5, hng6, hng7⟩ := normalizePostPayload_ok req p hp
  have hptv : p.postType = "CRAWL".toList := by
    rw [hrow] at hcr
    exact hcr
  have hcne : p.crawlLocations ≠ [] := fun hnil => hng7 ⟨hptv, hnil⟩
  obtain ⟨hd0, rest, hcons⟩ : ∃ hd0 rest, p.crawlLocations = hd0 :: rest := by
    cases hcc : p.crawlLocations with
    | nil => exact absurd hcc hcne
    | cons a l => exact ⟨a, l, rfl⟩
  have hsort : hd0.sortOrder = 0 := by
    cases hin : req.crawlLocations with
    | absent =>
      rw [hin] at hcl
      have hnil : ([] : List CrawlLoc) = p.crawlLocations := Except.ok.inj hcl
      exact absurd hnil.symm hcne
    | invalidJson =>
      rw [hin] at hcl
      exact Except.noConfusion hcl
    | notArray =>
      rw [hin] at hcl
      exact Except.noConfusion hcl
    | arr entries =>
      rw [hin] at hcl
      have hrun := (normalizeCrawlLocations_ok_arr entries p.crawlLocations hcl).2
      exact (normalizeCrawlEntries_ok_shape entries 0 p.crawlLocations hrun).2 hd0
        (by rw [hcons]; rfl)
  refine ⟨p.crawlLocations, hd0, hcl, by rw [hcons]; rfl, hsort, ?_, ?_, ?_⟩
  · rw [hrow]
    simp [buildFeedPostRow, hptv, hcons]
  · rw [hrow]
    simp [buildFeedPostRow, hptv, hcons]
  · rw [hrow]
    simp [buildFeedPostRow, hptv, hcons]

/-- A CRAWL post request with two stops: the first carries coordinates,
the second none. -/
def crawlTwoStopReq : PostReq :=
  { crawlBaseReq with
    crawlLocations := .arr [⟨some "Bar".toList, .num 10, .num 20⟩,
      ⟨some "Pub".toList, .blank, .blank⟩] }

/-- The post row created for `crawlTwoStopReq`. -/
def crawlTwoStopRow : FeedPostRow :=
  { feedPostId := "p1".toList, tripId := "t1".toList, tripDayNumber := 1,
    authorUserId := "u1".toList, postType := "CRAWL".toList,
    title := some "Crawl".toList, body := none, eventName := none,
    fromTime := some "18:00:00".toList, toTime := some "23:00:00".toList,
    locationName := some "Bar".toList, latitude := some 10, longitude := some 20,
    isDeleted := false }

/-- The database state after `crawlTwoStopReq` is accepted. -/
def crawlTwoStopState : DbState :=
  { postSampleState with
    posts := [crawlTwoStopRow],
    crawlLocs := [⟨"p1".toList, 0, "Bar".toList, some 10, some 20⟩,
      ⟨"p1".toList, 1, "Pub".toList, none, none⟩] }

/-- C10 witness: the concrete two-stop CRAWL post stores its first
stop's name and coordinates as its top-level location. -/
theorem c10_crawl_top_level_location_witness :
    ∃ locs hd0, normalizeCrawlLocations crawlTwoStopReq.crawlLocations = .ok locs
      ∧ locs.head? = some hd0
      ∧ hd0.sortOrder = 0
      ∧ crawlTwoStopRow.locationName = some hd0.locationName
      ∧ crawlTwoStopRow.latitude = hd0.latitude
      ∧ crawlTwoStopRow.longitude = hd0.longitude :=
  c10_crawl_top_level_location crawlTwoStopReq postSampleState "t1".toList "u1".toList
    "p1".toList crawlTwoStopState crawlTwoStopRow rfl rfl

end TripPlanner
